import Mathlib

/-!
# Verification of the tournament bracket / standings engine

Shallow embedding of the pure tournament logic of the repository
(`generateRoundRobinMatches`, `generateSingleEliminationMatches`,
`calculateGroupStandings`, `advanceWinnerToNextRound`) together with proofs
of the specification claims about it.

The JavaScript functions are translated as follows: the database insert /
update performed at the end of each generator is dropped and the list of
records that would be inserted (resp. the slot-update instruction that would
be issued) is returned instead; the `Map` used by the standings calculator
becomes an association list with JavaScript `Map` semantics (insertion
order preserved, `set` on an existing key overwrites in place); JavaScript
strings stay `String` but the handful of string primitives used by the code
(`split` on a one-character separator, `trim`, `Number`) are modelled by
explicit structurally recursive functions below.  `Number(s)` is modelled on
trimmed integer numerals (empty string ↦ 0, digit string ↦ its value,
anything else ↦ `none`, standing for `NaN`); the score fragments produced by
splitting on `-` can never contain a sign, and non-integer numerals do not
occur in tennis scores.
-/

/-- Stage of a match, `"group" | "knockout"` in the source. -/
inductive MatchStage
  | group
  | knockout
deriving DecidableEq

/-- Status of a match, `"pending" | "in_progress" | "completed"`. -/
inductive MatchStatus
  | pending
  | in_progress
  | completed
deriving DecidableEq

/-- The fields of `TournamentParticipant` that the bracket / standings logic
reads (`id`; `seed` and `group_number` are carried along for fidelity but the
generators use only the list order). -/
structure TournamentParticipant where
  id : String
  seed : Option Nat := none
  group_number : Option Nat := none
deriving DecidableEq

/-- The fields of `TournamentMatch` used by the standings calculator and the
advancement function. -/
structure TournamentMatch where
  id : String
  tournament_id : String
  round : Nat
  match_number : Nat
  stage : MatchStage
  group_number : Option Nat := none
  participant1_id : Option String
  participant2_id : Option String
  score : Option String
  winner_id : Option String
  status : MatchStatus
deriving DecidableEq

/-- One standings row, mirroring the `GroupStanding` interface. -/
structure GroupStanding where
  participant : TournamentParticipant
  played : Nat
  won : Nat
  lost : Nat
  sets_won : Nat
  sets_lost : Nat
  games_won : Nat
  games_lost : Nat
  points : Nat
deriving DecidableEq

/-! ## Models of the JavaScript string primitives -/

/-- JavaScript whitespace test for the characters that can occur here. -/
def isWs (c : Char) : Bool :=
  c = ' ' || c = '\t' || c = '\n' || c = '\r'

/-- Helper for `jsSplitChar`: splits a character list at every occurrence of
`c`, keeping empty pieces, exactly like `String.prototype.split` with a
one-character separator. -/
def splitCharAux (c : Char) : List Char → List Char → List (List Char)
  | [], acc => [acc.reverse]
  | x :: xs, acc =>
    if x = c then acc.reverse :: splitCharAux c xs []
    else splitCharAux c xs (x :: acc)

/-- Model of `s.split(sep)` for a one-character separator `sep`. -/
def jsSplitChar (s : String) (c : Char) : List String :=
  (splitCharAux c s.data []).map String.mk

/-- Model of `String.prototype.trim`. -/
def jsTrim (s : String) : String :=
  String.mk (((s.data.dropWhile isWs).reverse.dropWhile isWs).reverse)

/-- Model of JavaScript `Number(s)` restricted to integer numerals: the
string is trimmed; an empty remainder yields `0`, a digit string its value,
anything else `none` (NaN). -/
def jsNumber (s : String) : Option Nat :=
  let t := ((s.data.dropWhile isWs).reverse.dropWhile isWs).reverse
  if t.isEmpty then some 0
  else if t.all Char.isDigit then
    some (t.foldl (fun n c => 10 * n + (c.toNat - 48)) 0)
  else none

/-! ## Standings calculator (`calculateGroupStandings`) -/

/-- Truthiness of the `m.score` filter condition: a score counts only when
it is present and not the empty string. -/
def scoreTruthy : Option String → Bool
  | none => false
  | some s => s ≠ ""

/-- The comma-split-and-trim step: `match.score!.split(",").map(s => s.trim())`. -/
def scoreFragments (s : String) : List String :=
  (jsSplitChar s ',').map jsTrim

/-- Parse one set fragment: `set.split("-").map(Number)` destructured into
`[g1, g2]`, kept only when both are numbers (`!isNaN`).  A missing second
piece destructures to `undefined`, which is NaN. -/
def fragParse (frag : String) : Option (Nat × Nat) :=
  let pieces := jsSplitChar frag '-'
  match jsNumber (pieces.getD 0 "") with
  | none => none
  | some g1 =>
    match pieces[1]? with
    | none => none
    | some p2 =>
      match jsNumber p2 with
      | none => none
      | some g2 => some (g1, g2)

/-- Accumulated per-match set/game counters
(`p1Sets`, `p2Sets`, `p1Games`, `p2Games`). -/
structure SetTally where
  p1Sets : Nat
  p2Sets : Nat
  p1Games : Nat
  p2Games : Nat
deriving DecidableEq

/-- One iteration of the `sets.forEach` loop. -/
def tallyStep (acc : SetTally) (frag : String) : SetTally :=
  match fragParse frag with
  | none => acc
  | some (g1, g2) =>
    { p1Sets := if g1 > g2 then acc.p1Sets + 1 else acc.p1Sets
      p2Sets := if g2 > g1 then acc.p2Sets + 1 else acc.p2Sets
      p1Games := acc.p1Games + g1
      p2Games := acc.p2Games + g2 }

/-- The whole `sets.forEach` accumulation. -/
def setsTally (frags : List String) : SetTally :=
  frags.foldl tallyStep ⟨0, 0, 0, 0⟩

/-- Association list standing in for the JavaScript `Map<string, GroupStanding>`. -/
abbrev StandingsMap := List (String × GroupStanding)

/-- Model of `Map.prototype.get`. -/
def mapGet (k : String) : StandingsMap → Option GroupStanding
  | [] => none
  | (k', v) :: rest => if k' = k then some v else mapGet k rest

/-- Model of `Map.prototype.set`: overwrite in place if the key exists
(keeping insertion order), else append. -/
def mapSet (k : String) (v : GroupStanding) : StandingsMap → StandingsMap
  | [] => [(k, v)]
  | (k', v') :: rest =>
    if k' = k then (k', v) :: rest else (k', v') :: mapSet k v rest

/-- In-place mutation of the standing object stored under key `k`
(the effect of `standing.field++` on the object fetched from the map). -/
def mapUpdate (k : String) (f : GroupStanding → GroupStanding) :
    StandingsMap → StandingsMap
  | [] => []
  | (k', v) :: rest =>
    if k' = k then (k', f v) :: rest else (k', v) :: mapUpdate k f rest

/-- The zero-initialised standing created for each participant. -/
def zeroStanding (p : TournamentParticipant) : GroupStanding :=
  { participant := p, played := 0, won := 0, lost := 0, sets_won := 0
    sets_lost := 0, games_won := 0, games_lost := 0, points := 0 }

/-- Initialisation loop: `participants.forEach(p => standings.set(p.id, {...}))`. -/
def initStandings (participants : List TournamentParticipant) : StandingsMap :=
  participants.foldl (fun st p => mapSet p.id (zeroStanding p) st) []

/-- The body of the `matches.filter(...).forEach(match => ...)` loop: mutate
the two standings referenced by a completed match.  Field mutations on the
fetched objects become keyed updates; interleaved `+=`s on independent
fields are grouped per participant, which yields the same map (all updates
are additive and keyed). -/
def processMatch (st : StandingsMap) (m : TournamentMatch) : StandingsMap :=
  match m.participant1_id, m.participant2_id with
  | some i1, some i2 =>
    match mapGet i1 st, mapGet i2 st with
    | some _, some _ =>
      let t := setsTally (scoreFragments (m.score.getD ""))
      let st1 := mapUpdate i1 (fun s =>
        { s with played := s.played + 1, sets_won := s.sets_won + t.p1Sets
                 sets_lost := s.sets_lost + t.p2Sets
                 games_won := s.games_won + t.p1Games
                 games_lost := s.games_lost + t.p2Games }) st
      let st2 := mapUpdate i2 (fun s =>
        { s with played := s.played + 1, sets_won := s.sets_won + t.p2Sets
                 sets_lost := s.sets_lost + t.p1Sets
                 games_won := s.games_won + t.p2Games
                 games_lost := s.games_lost + t.p1Games }) st1
      if m.winner_id = m.participant1_id then
        mapUpdate i2 (fun s => { s with lost := s.lost + 1 })
          (mapUpdate i1 (fun s => { s with won := s.won + 1, points := s.points + 3 }) st2)
      else
        mapUpdate i1 (fun s => { s with lost := s.lost + 1 })
          (mapUpdate i2 (fun s => { s with won := s.won + 1, points := s.points + 3 }) st2)
    | _, _ => st
  | _, _ => st

/-- The standings map after processing every completed match. -/
def standingsTable (participants : List TournamentParticipant)
    (matchList : List TournamentMatch) : StandingsMap :=
  (matchList.filter fun m =>
      decide (m.status = MatchStatus.completed) && scoreTruthy m.score).foldl
    processMatch (initStandings participants)

/-- Set differential used by the sort comparator. -/
def setDiff (s : GroupStanding) : Int :=
  (s.sets_won : Int) - (s.sets_lost : Int)

/-- Game differential used by the sort comparator. -/
def gameDiff (s : GroupStanding) : Int :=
  (s.games_won : Int) - (s.games_lost : Int)

/-- The comparator passed to `.sort`: points descending, then set
differential, then game differential. -/
def standingCompare (a b : GroupStanding) : Int :=
  if (b.points : Int) ≠ (a.points : Int) then (b.points : Int) - (a.points : Int)
  else if setDiff b ≠ setDiff a then setDiff b - setDiff a
  else gameDiff b - gameDiff a

/-- Stable insertion used to model `Array.prototype.sort` (which ECMA-262
requires to be stable): insert `a` before the first element it does not
strictly follow. -/
def insertByCmp (cmp : α → α → Int) (a : α) : List α → List α
  | [] => [a]
  | b :: bs => if cmp a b > 0 then b :: insertByCmp cmp a bs else a :: b :: bs

/-- Model of `Array.prototype.sort` with a consistent comparator: the unique
stable order, realised by right-fold insertion. -/
def jsSortStable (cmp : α → α → Int) (l : List α) : List α :=
  l.foldr (insertByCmp cmp) []

/-- `calculateGroupStandings`: initialise, process completed matches, sort. -/
def calculateGroupStandings (participants : List TournamentParticipant)
    (matchList : List TournamentMatch) : List GroupStanding :=
  jsSortStable standingCompare ((standingsTable participants matchList).map Prod.snd)


/-! ## Bracket advancement (`advanceWinnerToNextRound`) -/

/-- Which participant slot of the downstream match gets the winner. -/
inductive SlotName
  | participant1
  | participant2
deriving DecidableEq

/-- Pure model of `advanceWinnerToNextRound`: the list of the tournament's
matches (what `getTournamentMatches` would return) is a parameter, and
instead of issuing the database update the function returns the slot-update
instruction `(match id, slot, winner id)`, or `none` when the function
returns without updating anything. The source guard
`if (!match.winner_id || match.stage !== "knockout") return;` is a
JavaScript truthiness test: it returns early both when `winner_id` is null
and when it is the (falsy) empty string, so both cases map to `none` here. -/
def advanceWinnerToNextRound (allMatches : List TournamentMatch)
    (mtch : TournamentMatch) : Option (String × SlotName × String) :=
  match mtch.winner_id with
  | none => none
  | some w =>
    if w = "" then none
    else if mtch.stage = MatchStage.knockout then
      let knockoutMatches := allMatches.filter fun m => decide (m.stage = MatchStage.knockout)
      let nextRound := mtch.round + 1
      let nextMatchNumber := (mtch.match_number + 1) / 2
      let isFirstOfPair := mtch.match_number % 2 = 1
      match knockoutMatches.find? (fun m =>
          decide (m.round = nextRound) && decide (m.match_number = nextMatchNumber)) with
      | none => none
      | some nextMatch =>
        some (nextMatch.id,
          if isFirstOfPair then SlotName.participant1 else SlotName.participant2, w)
    else none

/-- Effect of the database update issued by `advanceWinnerToNextRound`:
write the winner into the addressed slot of the match with the given id
(or change nothing when no update was issued). -/
def applySlotUpdate (ms : List TournamentMatch) :
    Option (String × SlotName × String) → List TournamentMatch
  | none => ms
  | some (mid, slot, w) =>
    ms.map fun m =>
      if m.id = mid then
        match slot with
        | SlotName.participant1 => { m with participant1_id := some w }
        | SlotName.participant2 => { m with participant2_id := some w }
      else m

/-! ## Single elimination generator (`generateSingleEliminationMatches`) -/

/-- The record pushed by the single-elimination generator (the anonymous
`matches` array element type in the source). -/
structure SEMatch where
  tournament_id : String
  round : Nat
  match_number : Nat
  stage : MatchStage
  participant1_id : Option String
  participant2_id : Option String
deriving DecidableEq

/-- Model of `p?.id || null` on a possibly-null seeded slot: `null` for a
missing participant, and (JavaScript falsiness of `""`) also for an empty
id. -/
def jsIdOrNull : Option TournamentParticipant → Option String
  | none => none
  | some p => if p.id = "" then none else some p.id

/-- The placeholder-round loop: `fuel` counted iterations starting at round
number `roundNum` with `matchesInRound` matches, halving each time. -/
def sePlaceholders (tid : String) : Nat → Nat → Nat → List SEMatch
  | 0, _, _ => []
  | fuel + 1, roundNum, matchesInRound =>
    ((List.range matchesInRound).map fun i =>
      ({ tournament_id := tid, round := roundNum, match_number := i + 1
         stage := MatchStage.knockout, participant1_id := none
         participant2_id := none } : SEMatch))
      ++ sePlaceholders tid fuel (roundNum + 1) (matchesInRound / 2)

/-- Fuel-driven computation of `ceil(log2 n)`; structurally recursive so
that concrete brackets evaluate inside the kernel.  `clog2Fuel fuel n`
equals `Nat.clog 2 n` whenever `n ≤ fuel` (proved below). -/
def clog2Fuel : Nat → Nat → Nat
  | 0, _ => 0
  | fuel + 1, n => if n ≤ 1 then 0 else clog2Fuel fuel ((n + 1) / 2) + 1

/-- Model of `Math.ceil(Math.log2(n))` on naturals; proved equal to
`Nat.clog 2 n` in `ceilLog2_eq_clog`. -/
def ceilLog2 (n : Nat) : Nat :=
  clog2Fuel n n

/-- `generateSingleEliminationMatches`: `rounds = ceil(log2 n)`; the seed
list is padded with nulls to `bracketSize`; the first round pairs slot `i`
with slot `bracketSize - 1 - i`; subsequent rounds are empty placeholders
with halving match counts. -/
def generateSingleEliminationMatches (tid : String)
    (participants : List TournamentParticipant) (startRound : Nat) : List SEMatch :=
  let n := participants.length
  let rounds := ceilLog2 n
  let bracketSize := 2 ^ rounds
  let seeded : List (Option TournamentParticipant) :=
    participants.map some ++ List.replicate (bracketSize - n) none
  let firstRoundMatches := bracketSize / 2
  let firstRound := (List.range firstRoundMatches).map fun i =>
    ({ tournament_id := tid, round := startRound, match_number := i + 1
       stage := MatchStage.knockout
       participant1_id := jsIdOrNull (seeded.getD i none)
       participant2_id := jsIdOrNull (seeded.getD (bracketSize - 1 - i) none) } : SEMatch)
  firstRound ++ sePlaceholders tid (rounds - 1) (startRound + 1) (firstRoundMatches / 2)

/-! ## Round robin generator (`generateRoundRobinMatches`) -/

/-- The record pushed by the round-robin generator (participant slots are
non-null strings there). -/
structure RRMatch where
  tournament_id : String
  round : Nat
  match_number : Nat
  stage : MatchStage
  group_number : Option Nat
  participant1_id : String
  participant2_id : String
deriving DecidableEq

/-- The synthetic entry `{ id: "BYE" }` appended for an odd participant count. -/
def byeParticipant : TournamentParticipant :=
  { id := "BYE" }

/-- Fallback participant for out-of-range list reads (never reached: all
reads in the loops below are in range). -/
def noParticipant : TournamentParticipant :=
  { id := "" }

/-- One rotation step: `playerList.pop()` then `splice(1, 0, last)` —
insert at index 1 of the popped list. -/
def spliceAt1 (x : TournamentParticipant) :
    List TournamentParticipant → List TournamentParticipant
  | [] => [x]
  | a :: rest => a :: x :: rest

/-- The whole `// Rotate players (keep first player fixed)` step. -/
def rotateCircle (pl : List TournamentParticipant) : List TournamentParticipant :=
  match pl.getLast? with
  | none => pl
  | some last => spliceAt1 last pl.dropLast

/-- One round of pairings: pair position `mi` with position
`numPlayers - 1 - mi`, skipping any pairing that involves the bye entry. -/
def rrRoundMatches (tid : String) (gn : Option Nat) (numPlayers half roundIdx : Nat)
    (pl : List TournamentParticipant) : List RRMatch :=
  (List.range half).filterMap fun mi =>
    let home := pl.getD mi noParticipant
    let away := pl.getD (numPlayers - 1 - mi) noParticipant
    if home.id ≠ "BYE" ∧ away.id ≠ "BYE" then
      some { tournament_id := tid, round := roundIdx + 1, match_number := mi + 1
             stage := if gn.isSome then MatchStage.group else MatchStage.knockout
             group_number := gn, participant1_id := home.id
             participant2_id := away.id }
    else none

/-- The round loop: `fuel` remaining rounds, current round index `roundIdx`,
current (rotated) player list `pl`. -/
def rrLoop (tid : String) (gn : Option Nat) (numPlayers half : Nat) :
    Nat → Nat → List TournamentParticipant → List RRMatch
  | 0, _, _ => []
  | fuel + 1, roundIdx, pl =>
    rrRoundMatches tid gn numPlayers half roundIdx pl
      ++ rrLoop tid gn numPlayers half fuel (roundIdx + 1) (rotateCircle pl)

/-- `generateRoundRobinMatches` (circle method): odd participant counts get
a `"BYE"` entry, `rounds = n - 1` for even `n` and `n` for odd `n`, and the
list is rotated (anchor fixed) after every round. -/
def generateRoundRobinMatches (tid : String)
    (participants : List TournamentParticipant) (gn : Option Nat) : List RRMatch :=
  let n := participants.length
  let rounds := if n % 2 = 0 then n - 1 else n
  let playerList :=
    if n % 2 = 1 then participants ++ [byeParticipant] else participants
  let numPlayers := playerList.length
  let half := numPlayers / 2
  rrLoop tid gn numPlayers half rounds 0 playerList

/-! ## Bridge from `ceilLog2` to `Nat.clog` -/

theorem clog2Fuel_eq_clog (fuel n : Nat) (h : n ≤ fuel) :
    clog2Fuel fuel n = Nat.clog 2 n := by
  induction fuel generalizing n with
  | zero =>
    rw [Nat.le_zero] at h
    subst h
    simp [clog2Fuel]
  | succ fuel ih =>
    by_cases h1 : n ≤ 1
    · rw [clog2Fuel, if_pos h1, Nat.clog_of_right_le_one h1]
    · push_neg at h1
      rw [clog2Fuel, if_neg (by omega), ih ((n + 1) / 2) (by omega)]
      conv_rhs => rw [Nat.clog_of_two_le one_lt_two (by omega)]
      congr 2

theorem ceilLog2_eq_clog (n : Nat) : ceilLog2 n = Nat.clog 2 n :=
  clog2Fuel_eq_clog n n le_rfl

/-! ## C4: concrete standings computation -/

/-- C4: with two participants and one completed match scored
`"6-4, 3-6, 7-5"` won by participant 1, `calculateGroupStandings` yields
p1: played 1, won 1, sets 2-1, games 16-15, 3 points, and p2: played 1,
lost 1, sets 1-2, games 15-16, 0 points (p1 sorted first). -/
theorem C4_concrete_standings :
    calculateGroupStandings
      [{ id := "p1" }, { id := "p2" }]
      [{ id := "m1", tournament_id := "t", round := 1, match_number := 1
         stage := MatchStage.group, group_number := some 1
         participant1_id := some "p1", participant2_id := some "p2"
         score := some "6-4, 3-6, 7-5", winner_id := some "p1"
         status := MatchStatus.completed }] =
    [{ participant := { id := "p1" }, played := 1, won := 1, lost := 0
       sets_won := 2, sets_lost := 1, games_won := 16, games_lost := 15
       points := 3 },
     { participant := { id := "p2" }, played := 1, won := 0, lost := 1
       sets_won := 1, sets_lost := 2, games_won := 15, games_lost := 16
       points := 0 }] := by
  decide

/-! ## C3 and C8: advancement addressing and no-op cases -/

/-- C3 counterexample: the claim quantifies over completed knockout matches
with a *non-null* `winner_id`, but the source's guard
`!match.winner_id` is a truthiness test, so the non-null empty-string
winner `some ""` is also rejected: here a completed round-1 match-3
knockout match has a non-null winner and its addressed downstream match
(round 2, match 2) exists in the list, yet advancement issues no write
at all, contradicting the claimed targeting and slot write. -/
theorem C3_counterexample :
    ({ id := "done", tournament_id := "t", round := 1, match_number := 3
       stage := MatchStage.knockout, participant1_id := some "x"
       participant2_id := some "y", score := some "6-0, 6-0"
       winner_id := some "", status := MatchStatus.completed } :
      TournamentMatch).winner_id ≠ none ∧
    (([{ id := "next", tournament_id := "t", round := 2, match_number := 2
         stage := MatchStage.knockout, participant1_id := none
         participant2_id := none, score := none, winner_id := none
         status := MatchStatus.pending }] :
        List TournamentMatch).filter fun x =>
          decide (x.stage = MatchStage.knockout)).find? (fun x =>
        decide (x.round = 1 + 1) && decide (x.match_number = (3 + 1) / 2)) ≠
      none ∧
    advanceWinnerToNextRound
      [{ id := "next", tournament_id := "t", round := 2, match_number := 2
         stage := MatchStage.knockout, participant1_id := none
         participant2_id := none, score := none, winner_id := none
         status := MatchStatus.pending }]
      { id := "done", tournament_id := "t", round := 1, match_number := 3
        stage := MatchStage.knockout, participant1_id := some "x"
        participant2_id := some "y", score := some "6-0, 6-0"
        winner_id := some "", status := MatchStatus.completed } = none := by
  decide

/-- C3 (amended): for a completed knockout match with a *truthy* winner id —
non-null and non-empty, since the source guard `!match.winner_id` also
rejects the falsy empty string — advancement issues the slot update
addressed to the knockout match found at round `round + 1`, match number
`⌈match_number / 2⌉` (which is `(match_number + 1) / 2` on naturals),
writing the winner into `participant1` when `match_number` is odd and
into `participant2` when it is even. -/
theorem C3_advancement_targets (ms : List TournamentMatch) (m : TournamentMatch)
    (w : String) (hw : m.winner_id = some w) (hwe : w ≠ "")
    (hst : m.stage = MatchStage.knockout) :
    advanceWinnerToNextRound ms m =
      ((ms.filter fun x => decide (x.stage = MatchStage.knockout)).find? (fun x =>
          decide (x.round = m.round + 1) &&
            decide (x.match_number = (m.match_number + 1) / 2))).map
        (fun nm => (nm.id,
          if m.match_number % 2 = 1 then SlotName.participant1 else SlotName.participant2,
          w)) ∧
    ∀ mid slot w2, advanceWinnerToNextRound ms m = some (mid, slot, w2) →
      w2 = w ∧
      slot = (if m.match_number % 2 = 1 then SlotName.participant1
              else SlotName.participant2) ∧
      ∃ nm ∈ ms, nm.id = mid ∧ nm.stage = MatchStage.knockout ∧
        nm.round = m.round + 1 ∧ nm.match_number = (m.match_number + 1) / 2 := by
  have heq : advanceWinnerToNextRound ms m =
      ((ms.filter fun x => decide (x.stage = MatchStage.knockout)).find? (fun x =>
          decide (x.round = m.round + 1) &&
            decide (x.match_number = (m.match_number + 1) / 2))).map
        (fun nm => (nm.id,
          if m.match_number % 2 = 1 then SlotName.participant1 else SlotName.participant2,
          w)) := by
    simp only [advanceWinnerToNextRound, hw, hst, if_neg hwe, if_true,
      eq_self_iff_true]
    cases hf : (ms.filter fun x => decide (x.stage = MatchStage.knockout)).find? (fun x =>
        decide (x.round = m.round + 1) &&
          decide (x.match_number = (m.match_number + 1) / 2)) with
    | none => simp [hf]
    | some nm => simp [hf]
  refine ⟨heq, ?_⟩
  intro mid slot w2 hsome
  rw [heq] at hsome
  cases hf : (ms.filter fun x => decide (x.stage = MatchStage.knockout)).find? (fun x =>
      decide (x.round = m.round + 1) &&
        decide (x.match_number = (m.match_number + 1) / 2)) with
  | none => rw [hf] at hsome; simp at hsome
  | some nm =>
    rw [hf] at hsome
    simp only [Option.map_some'] at hsome
    have hp := List.find?_some hf
    have hmem := List.mem_of_find?_eq_some hf
    rw [List.mem_filter] at hmem
    simp only [Bool.and_eq_true, decide_eq_true_eq] at hp
    simp only [Option.some.injEq, Prod.mk.injEq] at hsome
    obtain ⟨h1, h2, h3⟩ := hsome
    refine ⟨h3.symm, h2.symm, nm, hmem.1, h1, ?_, hp.1, hp.2⟩
    simpa using hmem.2

/-- C3 witness: the concrete case from the claim — round 1, match 3 feeds
round 2, match 2, slot `participant1`. -/
theorem C3_advancement_targets_witness :
    advanceWinnerToNextRound
      [{ id := "next", tournament_id := "t", round := 2, match_number := 2
         stage := MatchStage.knockout, participant1_id := none
         participant2_id := none, score := none, winner_id := none
         status := MatchStatus.pending }]
      { id := "done", tournament_id := "t", round := 1, match_number := 3
        stage := MatchStage.knockout, participant1_id := some "x"
        participant2_id := some "y", score := some "6-0, 6-0"
        winner_id := some "x", status := MatchStatus.completed } =
    some ("next", SlotName.participant1, "x") := by
  have h := (C3_advancement_targets
    [{ id := "next", tournament_id := "t", round := 2, match_number := 2
       stage := MatchStage.knockout, participant1_id := none
       participant2_id := none, score := none, winner_id := none
       status := MatchStatus.pending }]
    { id := "done", tournament_id := "t", round := 1, match_number := 3
      stage := MatchStage.knockout, participant1_id := some "x"
      participant2_id := some "y", score := some "6-0, 6-0"
      winner_id := some "x", status := MatchStatus.completed } "x" rfl
    (by decide) rfl).1
  rw [h]
  decide

/-- C8: advancement writes nothing — and raises nothing — when the match is
not a knockout match, has no winner, or no downstream match exists (the
completed match was the final). -/
theorem C8_advancement_noop (ms : List TournamentMatch) (m : TournamentMatch)
    (h : m.stage ≠ MatchStage.knockout ∨ m.winner_id = none ∨
      (ms.filter fun x => decide (x.stage = MatchStage.knockout)).find? (fun x =>
        decide (x.round = m.round + 1) &&
          decide (x.match_number = (m.match_number + 1) / 2)) = none) :
    advanceWinnerToNextRound ms m = none ∧
    applySlotUpdate ms (advanceWinnerToNextRound ms m) = ms := by
  have hnone : advanceWinnerToNextRound ms m = none := by
    cases hw : m.winner_id with
    | none => simp [advanceWinnerToNextRound, hw]
    | some w =>
      by_cases hwe : w = ""
      · simp [advanceWinnerToNextRound, hw, hwe]
      · rcases h with hstage | hwin | hfind
        · simp [advanceWinnerToNextRound, hw, hwe, hstage]
        · rw [hwin] at hw; cases hw
        · by_cases hstage : m.stage = MatchStage.knockout
          · simp [advanceWinnerToNextRound, hw, hwe, hstage, hfind]
          · simp [advanceWinnerToNextRound, hw, hwe, hstage]
  exact ⟨hnone, by rw [hnone]; rfl⟩

/-- C8 witness: a completed group-stage match triggers no write. -/
theorem C8_advancement_noop_witness :
    advanceWinnerToNextRound []
      { id := "g1", tournament_id := "t", round := 1, match_number := 1
        stage := MatchStage.group, group_number := some 1
        participant1_id := some "x", participant2_id := some "y"
        score := some "6-0, 6-0", winner_id := some "x"
        status := MatchStatus.completed } = none ∧
    applySlotUpdate []
      (advanceWinnerToNextRound []
        { id := "g1", tournament_id := "t", round := 1, match_number := 1
          stage := MatchStage.group, group_number := some 1
          participant1_id := some "x", participant2_id := some "y"
          score := some "6-0, 6-0", winner_id := some "x"
          status := MatchStatus.completed }) = [] :=
  C8_advancement_noop []
    { id := "g1", tournament_id := "t", round := 1, match_number := 1
      stage := MatchStage.group, group_number := some 1
      participant1_id := some "x", participant2_id := some "y"
      score := some "6-0, 6-0", winner_id := some "x"
      status := MatchStatus.completed } (Or.inl (by decide))

/-! ## C5: single-elimination bracket shape -/

theorem countP_round_map_range (f : Nat → SEMatch) (c r0 r : Nat)
    (hf : ∀ i, (f i).round = r0) :
    (((List.range c).map f).countP fun mt => decide (mt.round = r)) =
      if r0 = r then c else 0 := by
  rw [List.countP_map]
  by_cases hr : r0 = r
  · subst hr
    rw [if_pos rfl]
    have h1 : List.countP ((fun mt => decide (mt.round = r0)) ∘ f) (List.range c) =
        (List.range c).length :=
      List.countP_eq_length.mpr (by intro a ha; simp [Function.comp, hf])
    rw [h1, List.length_range]
  · rw [if_neg hr]
    apply List.countP_eq_zero.mpr
    intro a ha
    simp [Function.comp, hf, hr]

theorem sePlaceholders_length (tid : String) :
    ∀ j r0 : Nat, (sePlaceholders tid j r0 (2 ^ j / 2)).length = 2 ^ j - 1 := by
  intro j
  induction j with
  | zero => intro r0; rfl
  | succ j ih =>
    intro r0
    have h2 : 2 ^ (j + 1) / 2 = 2 ^ j := by
      rw [pow_succ]
      exact Nat.mul_div_cancel _ (by norm_num)
    have hp : 2 ^ (j + 1) = 2 * 2 ^ j := by
      rw [pow_succ]; ring
    have hone : 1 ≤ 2 ^ j := Nat.one_le_two_pow
    rw [h2, sePlaceholders, List.length_append, List.length_map,
      List.length_range, ih (r0 + 1)]
    omega

theorem sePlaceholders_countP (tid : String) :
    ∀ j r0 r : Nat,
      ((sePlaceholders tid j r0 (2 ^ j / 2)).countP fun mt => decide (mt.round = r)) =
        if r0 ≤ r ∧ r < r0 + j then 2 ^ j / 2 ^ (r - r0 + 1) else 0 := by
  intro j
  induction j with
  | zero =>
    intro r0 r
    rw [if_neg (by omega)]
    rfl
  | succ j ih =>
    intro r0 r
    have h2 : 2 ^ (j + 1) / 2 = 2 ^ j := by
      rw [pow_succ]
      exact Nat.mul_div_cancel _ (by norm_num)
    rw [h2, sePlaceholders, List.countP_append,
      countP_round_map_range _ _ r0 r (fun i => rfl), ih (r0 + 1) r]
    by_cases hcase : r0 ≤ r ∧ r < r0 + (j + 1)
    · rw [if_pos hcase]
      by_cases hr : r0 = r
      · subst hr
        rw [if_pos rfl, if_neg (by omega)]
        have e1 : r0 - r0 + 1 = 1 := by omega
        rw [e1, pow_one, h2]
        omega
      · have hd1 : r0 + 1 ≤ r := by omega
        rw [if_neg hr, if_pos ⟨hd1, by omega⟩]
        have e1 : r - (r0 + 1) + 1 = r - r0 := by omega
        rw [e1, Nat.pow_div (by omega) (by norm_num),
          Nat.pow_div (by omega) (by norm_num)]
        have e2 : j - (r - r0) = j + 1 - (r - r0 + 1) := by omega
        rw [e2, Nat.zero_add]
    · rw [if_neg hcase, if_neg (by omega), if_neg (by omega)]

theorem se_countP_round (tid : String) (ps : List TournamentParticipant)
    (hN : 2 ≤ ps.length) (r : Nat) :
    ((generateSingleEliminationMatches tid ps 1).countP fun mt => decide (mt.round = r)) =
      if 1 ≤ r ∧ r ≤ Nat.clog 2 ps.length then
        2 ^ Nat.clog 2 ps.length / 2 ^ r
      else 0 := by
  have hceil := ceilLog2_eq_clog ps.length
  have hR : 1 ≤ Nat.clog 2 ps.length := Nat.clog_pos one_lt_two hN
  set R := Nat.clog 2 ps.length with hRdef
  have hB2 : (2 : ℕ) ^ R = 2 * 2 ^ (R - 1) := by
    obtain ⟨k, hk⟩ : ∃ k, R = k + 1 := ⟨R - 1, by omega⟩
    rw [hk, pow_succ, Nat.add_sub_cancel]
    ring
  have harg : 2 ^ R / 2 / 2 = 2 ^ (R - 1) / 2 := by
    rw [hB2, Nat.mul_div_cancel_left _ (by norm_num : 0 < 2)]
  simp only [generateSingleEliminationMatches, hceil, ← hRdef]
  rw [List.countP_append, countP_round_map_range _ _ 1 r (fun i => rfl),
    harg, sePlaceholders_countP tid (R - 1) (1 + 1) r]
  by_cases hone : r = 1
  · subst hone
    rw [if_pos rfl, if_neg (by omega), if_pos ⟨le_rfl, hR⟩, pow_one]
    omega
  · by_cases hin : 1 + 1 ≤ r ∧ r < 1 + 1 + (R - 1)
    · rw [if_neg (by omega), if_pos hin, if_pos ⟨by omega, by omega⟩]
      have e1 : r - (1 + 1) + 1 = r - 1 := by omega
      rw [e1, Nat.pow_div (by omega) (by norm_num),
        Nat.pow_div (by omega) (by norm_num)]
      have e2 : R - 1 - (r - 1) = R - r := by omega
      rw [e2, Nat.zero_add]
    · rw [if_neg (by omega), if_neg hin, if_neg (by omega)]

theorem se_length (tid : String) (ps : List TournamentParticipant)
    (hN : 2 ≤ ps.length) :
    (generateSingleEliminationMatches tid ps 1).length =
      2 ^ Nat.clog 2 ps.length - 1 := by
  have hceil := ceilLog2_eq_clog ps.length
  have hR : 1 ≤ Nat.clog 2 ps.length := Nat.clog_pos one_lt_two hN
  set R := Nat.clog 2 ps.length with hRdef
  have hB2 : (2 : ℕ) ^ R = 2 * 2 ^ (R - 1) := by
    obtain ⟨k, hk⟩ : ∃ k, R = k + 1 := ⟨R - 1, by omega⟩
    rw [hk, pow_succ, Nat.add_sub_cancel]
    ring
  have harg : 2 ^ R / 2 / 2 = 2 ^ (R - 1) / 2 := by
    rw [hB2, Nat.mul_div_cancel_left _ (by norm_num : 0 < 2)]
  have hone : 1 ≤ 2 ^ (R - 1) := Nat.one_le_two_pow
  simp only [generateSingleEliminationMatches, hceil, ← hRdef]
  rw [List.length_append, List.length_map, List.length_range, harg,
    sePlaceholders_length tid (R - 1) (1 + 1), hB2,
    Nat.mul_div_cancel_left _ (by norm_num : 0 < 2)]
  omega

/-- C5: for `N ≥ 2` participants and `startRound = 1`, the bracket has
`bracketSize = 2 ^ ceil(log2 N)`: round 1 holds `bracketSize / 2` match
records, every round `2 ≤ r ≤ rounds` holds half as many as round `r - 1`,
the final round holds exactly one, and in total `bracketSize - 1` records
are produced. -/
theorem C5_bracket_shape (tid : String) (ps : List TournamentParticipant)
    (hN : 2 ≤ ps.length) :
    ((generateSingleEliminationMatches tid ps 1).countP fun mt => decide (mt.round = 1)) =
        2 ^ Nat.clog 2 ps.length / 2 ∧
    (∀ r, 2 ≤ r → r ≤ Nat.clog 2 ps.length →
      2 * ((generateSingleEliminationMatches tid ps 1).countP fun mt => decide (mt.round = r)) =
        (generateSingleEliminationMatches tid ps 1).countP fun mt => decide (mt.round = r - 1)) ∧
    ((generateSingleEliminationMatches tid ps 1).countP fun mt =>
        decide (mt.round = Nat.clog 2 ps.length)) = 1 ∧
    (generateSingleEliminationMatches tid ps 1).length = 2 ^ Nat.clog 2 ps.length - 1 := by
  have hR : 1 ≤ Nat.clog 2 ps.length := Nat.clog_pos one_lt_two hN
  refine ⟨?_, ?_, ?_, se_length tid ps hN⟩
  · rw [se_countP_round tid ps hN 1, if_pos ⟨le_rfl, hR⟩, pow_one]
  · intro r h2 hle
    rw [se_countP_round tid ps hN r, se_countP_round tid ps hN (r - 1),
      if_pos ⟨by omega, hle⟩, if_pos ⟨by omega, by omega⟩,
      Nat.pow_div (by omega) (by norm_num), Nat.pow_div (by omega) (by norm_num)]
    have e1 : Nat.clog 2 ps.length - (r - 1) = Nat.clog 2 ps.length - r + 1 := by omega
    rw [e1, pow_succ]
    ring
  · rw [se_countP_round tid ps hN (Nat.clog 2 ps.length), if_pos ⟨hR, le_rfl⟩,
      Nat.div_self (by positivity)]

/-- C5 witness: the five-participant bracket (bracketSize 8). -/
theorem C5_bracket_shape_witness :
    2 ≤ ([{ id := "a" }, { id := "b" }, { id := "c" }, { id := "d" },
          { id := "e" }] : List TournamentParticipant).length ∧
    (((generateSingleEliminationMatches "t"
        [{ id := "a" }, { id := "b" }, { id := "c" }, { id := "d" }, { id := "e" }]
        1).countP fun mt => decide (mt.round = 1)) =
      2 ^ Nat.clog 2 ([{ id := "a" }, { id := "b" }, { id := "c" }, { id := "d" },
          { id := "e" }] : List TournamentParticipant).length / 2 ∧
    (∀ r, 2 ≤ r →
      r ≤ Nat.clog 2 ([{ id := "a" }, { id := "b" }, { id := "c" }, { id := "d" },
          { id := "e" }] : List TournamentParticipant).length →
      2 * ((generateSingleEliminationMatches "t"
          [{ id := "a" }, { id := "b" }, { id := "c" }, { id := "d" }, { id := "e" }]
          1).countP fun mt => decide (mt.round = r)) =
        (generateSingleEliminationMatches "t"
          [{ id := "a" }, { id := "b" }, { id := "c" }, { id := "d" }, { id := "e" }]
          1).countP fun mt => decide (mt.round = r - 1)) ∧
    ((generateSingleEliminationMatches "t"
        [{ id := "a" }, { id := "b" }, { id := "c" }, { id := "d" }, { id := "e" }]
        1).countP fun mt =>
        decide (mt.round = Nat.clog 2 ([{ id := "a" }, { id := "b" }, { id := "c" },
          { id := "d" }, { id := "e" }] : List TournamentParticipant).length)) = 1 ∧
    (generateSingleEliminationMatches "t"
        [{ id := "a" }, { id := "b" }, { id := "c" }, { id := "d" }, { id := "e" }]
        1).length =
      2 ^ Nat.clog 2 ([{ id := "a" }, { id := "b" }, { id := "c" }, { id := "d" },
          { id := "e" }] : List TournamentParticipant).length - 1) :=
  ⟨by decide,
    C5_bracket_shape "t"
      [{ id := "a" }, { id := "b" }, { id := "c" }, { id := "d" }, { id := "e" }]
      (by decide)⟩

/-! ## C1: first-round seeding and the seed-1 / seed-N pairing -/

theorem sePlaceholders_slots_none (tid : String) :
    ∀ j r0 c : Nat, ∀ mt ∈ sePlaceholders tid j r0 c,
      mt.participant1_id = none ∧ mt.participant2_id = none := by
  intro j
  induction j with
  | zero => intro r0 c mt hmt; cases hmt
  | succ j ih =>
    intro r0 c mt hmt
    rw [sePlaceholders, List.mem_append] at hmt
    rcases hmt with hmt | hmt
    · rw [List.mem_map] at hmt
      obtain ⟨i, _, hfi⟩ := hmt
      subst hfi
      exact ⟨rfl, rfl⟩
    · exact ih (r0 + 1) (c / 2) mt hmt

theorem getD_id_inj (ps : List TournamentParticipant)
    (hnodup : (ps.map TournamentParticipant.id).Nodup) (a b : Nat)
    (ha : a < ps.length) (hb : b < ps.length)
    (hid : (ps.getD a noParticipant).id = (ps.getD b noParticipant).id) : a = b := by
  rw [List.getD_eq_getElem ps noParticipant ha,
    List.getD_eq_getElem ps noParticipant hb] at hid
  have ha' : a < (ps.map TournamentParticipant.id).length := by
    rw [List.length_map]; exact ha
  have hb' : b < (ps.map TournamentParticipant.id).length := by
    rw [List.length_map]; exact hb
  have : (ps.map TournamentParticipant.id)[a] = (ps.map TournamentParticipant.id)[b] := by
    rw [List.getElem_map, List.getElem_map]
    exact hid
  exact (List.Nodup.getElem_inj_iff hnodup).mp this

/-- Characterisation of one first-round slot of the seeded list: a non-null
produced id comes from an in-range participant index with that id. -/
theorem seeded_slot_some (ps : List TournamentParticipant) (k : Nat) (w : Nat)
    (x : String)
    (hx : jsIdOrNull ((ps.map some ++ List.replicate k none).getD w none) = some x) :
    w < ps.length ∧ (ps.getD w noParticipant).id = x := by
  by_cases hw : w < ps.length
  · refine ⟨hw, ?_⟩
    rw [List.getD_append _ _ _ _ (by rw [List.length_map]; exact hw),
      List.getD_eq_getElem _ _ (by rw [List.length_map]; exact hw),
      List.getElem_map] at hx
    rw [jsIdOrNull] at hx
    split at hx
    · cases hx
    · rw [Option.some.injEq] at hx
      rw [List.getD_eq_getElem ps noParticipant hw]
      exact hx
  · exfalso
    rw [List.getD_append_right _ _ _ _ (by rw [List.length_map]; omega)] at hx
    have hrep : (List.replicate k (none : Option TournamentParticipant)).getD
        (w - (ps.map some).length) none = none := by
      rcases lt_or_ge (w - (ps.map some).length) k with hlt | hge
      · rw [List.getD_eq_getElem _ _ (by rw [List.length_replicate]; exact hlt),
          List.getElem_replicate]
      · rw [List.getD_eq_default _ _ (by rw [List.length_replicate]; exact hge)]
    rw [hrep] at hx
    cases hx

/-- C1 counterexample: with four participants (a power of two), the very
first match generated pairs seed 1 (`"a"`, index 0) with seed N
(`"d"`, index 3), so the claimed property fails for `N = 4 > 2`. -/
theorem C1_counterexample :
    2 < ([{ id := "a" }, { id := "b" }, { id := "c" }, { id := "d" }] :
        List TournamentParticipant).length ∧
    ∃ mt ∈ generateSingleEliminationMatches "t"
        [{ id := "a" }, { id := "b" }, { id := "c" }, { id := "d" }] 1,
      mt.round = 1 ∧ mt.participant1_id = some "a" ∧ mt.participant2_id = some "d" := by
  decide

/-- C1 amended: the first round never pairs seed 1 (index 0) with seed N
(index `N - 1`) *provided `N` is not a power of two* (when `N` is an exact
power of two the bracket is full and match 1 pairs slot 0 with slot
`N - 1`, i.e. seed 1 meets seed N — see the counterexample at `N = 4`). -/
theorem C1_seed1_seedN_amended (tid : String) (ps : List TournamentParticipant)
    (hN : 2 < ps.length)
    (hpow : ps.length ≠ 2 ^ Nat.clog 2 ps.length)
    (hnodup : (ps.map TournamentParticipant.id).Nodup) :
    ∀ mt ∈ generateSingleEliminationMatches tid ps 1,
      ¬((mt.participant1_id = some ((ps.getD 0 noParticipant).id) ∧
          mt.participant2_id = some ((ps.getD (ps.length - 1) noParticipant).id)) ∨
        (mt.participant1_id = some ((ps.getD (ps.length - 1) noParticipant).id) ∧
          mt.participant2_id = some ((ps.getD 0 noParticipant).id))) := by
  intro mt hmt hbad
  have hnB : ps.length ≤ 2 ^ ceilLog2 ps.length := by
    rw [ceilLog2_eq_clog]
    exact Nat.le_pow_clog one_lt_two _
  have hlt : ps.length < 2 ^ ceilLog2 ps.length :=
    lt_of_le_of_ne hnB (by rw [ceilLog2_eq_clog]; exact hpow)
  simp only [generateSingleEliminationMatches, List.mem_append] at hmt
  rcases hmt with hfr | hpl
  · rw [List.mem_map] at hfr
    obtain ⟨i, hi, hfi⟩ := hfr
    rw [List.mem_range] at hi
    subst hfi
    rcases hbad with ⟨h1, h2⟩ | ⟨h1, h2⟩
    · obtain ⟨hi1, hid1⟩ := seeded_slot_some ps _ _ _ h1
      obtain ⟨hi2, hid2⟩ := seeded_slot_some ps _ _ _ h2
      have hi0 : i = 0 := getD_id_inj ps hnodup i 0 hi1 (by omega) hid1
      have hiN : 2 ^ ceilLog2 ps.length - 1 - i = ps.length - 1 :=
        getD_id_inj ps hnodup _ _ hi2 (by omega) hid2
      omega
    · obtain ⟨hi1, hid1⟩ := seeded_slot_some ps _ _ _ h1
      obtain ⟨hi2, hid2⟩ := seeded_slot_some ps _ _ _ h2
      have hiN : i = ps.length - 1 := getD_id_inj ps hnodup i _ hi1 (by omega) hid1
      have hi0 : 2 ^ ceilLog2 ps.length - 1 - i = 0 :=
        getD_id_inj ps hnodup _ 0 hi2 (by omega) hid2
      omega
  · obtain ⟨hp1, _⟩ := sePlaceholders_slots_none tid _ _ _ mt hpl
    rcases hbad with ⟨h1, _⟩ | ⟨h1, _⟩ <;> rw [hp1] at h1 <;> cases h1

/-- C1 amended witness: three participants (bracket of four, one bye):
no first-round match pairs seed 1 with seed 3. -/
theorem C1_seed1_seedN_amended_witness :
    (2 < ([{ id := "a" }, { id := "b" }, { id := "c" }] :
        List TournamentParticipant).length ∧
      ([{ id := "a" }, { id := "b" }, { id := "c" }] :
        List TournamentParticipant).length ≠
        2 ^ Nat.clog 2 ([{ id := "a" }, { id := "b" }, { id := "c" }] :
          List TournamentParticipant).length) ∧
    ∀ mt ∈ generateSingleEliminationMatches "t"
        [{ id := "a" }, { id := "b" }, { id := "c" }] 1,
      ¬((mt.participant1_id =
            some ((([{ id := "a" }, { id := "b" }, { id := "c" }] :
              List TournamentParticipant).getD 0 noParticipant).id) ∧
          mt.participant2_id =
            some ((([{ id := "a" }, { id := "b" }, { id := "c" }] :
              List TournamentParticipant).getD
                (([{ id := "a" }, { id := "b" }, { id := "c" }] :
                  List TournamentParticipant).length - 1) noParticipant).id)) ∨
        (mt.participant1_id =
            some ((([{ id := "a" }, { id := "b" }, { id := "c" }] :
              List TournamentParticipant).getD
                (([{ id := "a" }, { id := "b" }, { id := "c" }] :
                  List TournamentParticipant).length - 1) noParticipant).id) ∧
          mt.participant2_id =
            some ((([{ id := "a" }, { id := "b" }, { id := "c" }] :
              List TournamentParticipant).getD 0 noParticipant).id))) :=
  ⟨⟨by decide, by rw [← ceilLog2_eq_clog]; decide⟩,
    C1_seed1_seedN_amended "t" [{ id := "a" }, { id := "b" }, { id := "c" }]
      (by decide) (by rw [← ceilLog2_eq_clog]; decide) (by decide)⟩

/-! ## Map lemmas for the standings table -/

theorem mapGet_mapUpdate_self (k : String) (f : GroupStanding → GroupStanding) :
    ∀ st : StandingsMap, mapGet k (mapUpdate k f st) = (mapGet k st).map f := by
  intro st
  induction st with
  | nil => rfl
  | cons e rest ih =>
    obtain ⟨k', v⟩ := e
    by_cases h : k' = k
    · subst h
      simp [mapGet, mapUpdate]
    · simp [mapGet, mapUpdate, h, ih]

theorem mapGet_mapUpdate_ne (k k' : String) (hne : k' ≠ k)
    (f : GroupStanding → GroupStanding) :
    ∀ st : StandingsMap, mapGet k (mapUpdate k' f st) = mapGet k st := by
  intro st
  induction st with
  | nil => rfl
  | cons e rest ih =>
    obtain ⟨k0, v⟩ := e
    by_cases h : k0 = k'
    · subst h
      simp [mapGet, mapUpdate, hne]
    · by_cases h0 : k0 = k
      · subst h0
        simp [mapGet, mapUpdate, h]
      · simp [mapGet, mapUpdate, h, h0, ih]

/-! ## C10: the else-branch always credits participant 2 -/

/-- C10: inside `calculateGroupStandings`, for a completed scored match whose
participants are both present, whenever `winner_id` differs from
`participant1_id` (including `null` or an id matching neither slot),
participant 2 is credited the win (`won + 1`, `points + 3`) and participant 1
the loss; participant 1 receives no credit and the win is never left
unassigned. -/
theorem C10_else_credits_p2 (st : StandingsMap) (m : TournamentMatch)
    (i1 i2 : String) (s1 s2 : GroupStanding)
    (hst : m.status = MatchStatus.completed)
    (hsc : scoreTruthy m.score = true)
    (h1 : m.participant1_id = some i1) (h2 : m.participant2_id = some i2)
    (hne : i1 ≠ i2)
    (hg1 : mapGet i1 st = some s1) (hg2 : mapGet i2 st = some s2)
    (hw : m.winner_id ≠ m.participant1_id) :
    ∃ s1' s2', mapGet i1 (processMatch st m) = some s1' ∧
      mapGet i2 (processMatch st m) = some s2' ∧
      s2'.won = s2.won + 1 ∧ s2'.points = s2.points + 3 ∧
      s1'.lost = s1.lost + 1 ∧
      s1'.won = s1.won ∧ s1'.points = s1.points ∧ s2'.lost = s2.lost := by
  rw [h1] at hw
  simp only [processMatch, h1, h2, hg1, hg2, if_neg hw]
  rw [mapGet_mapUpdate_self, mapGet_mapUpdate_ne i1 i2 (Ne.symm hne),
    mapGet_mapUpdate_ne i1 i2 (Ne.symm hne), mapGet_mapUpdate_self,
    mapGet_mapUpdate_ne i2 i1 hne, mapGet_mapUpdate_self, mapGet_mapUpdate_self,
    mapGet_mapUpdate_ne i2 i1 hne, hg1, hg2]
  exact ⟨_, _, rfl, rfl, rfl, rfl, rfl, rfl, rfl, rfl⟩

/-- C10 witness: winner id `null` on a completed match still credits
participant 2 with the win. -/
theorem C10_else_credits_p2_witness :
    ∃ s1' s2',
      mapGet "p1" (processMatch
        [("p1", zeroStanding { id := "p1" }), ("p2", zeroStanding { id := "p2" })]
        { id := "m1", tournament_id := "t", round := 1, match_number := 1
          stage := MatchStage.group, group_number := some 1
          participant1_id := some "p1", participant2_id := some "p2"
          score := some "6-4", winner_id := none
          status := MatchStatus.completed }) = some s1' ∧
      mapGet "p2" (processMatch
        [("p1", zeroStanding { id := "p1" }), ("p2", zeroStanding { id := "p2" })]
        { id := "m1", tournament_id := "t", round := 1, match_number := 1
          stage := MatchStage.group, group_number := some 1
          participant1_id := some "p1", participant2_id := some "p2"
          score := some "6-4", winner_id := none
          status := MatchStatus.completed }) = some s2' ∧
      s2'.won = (zeroStanding { id := "p2" }).won + 1 ∧
      s2'.points = (zeroStanding { id := "p2" }).points + 3 ∧
      s1'.lost = (zeroStanding { id := "p1" }).lost + 1 ∧
      s1'.won = (zeroStanding { id := "p1" }).won ∧
      s1'.points = (zeroStanding { id := "p1" }).points ∧
      s2'.lost = (zeroStanding { id := "p2" }).lost :=
  C10_else_credits_p2
    [("p1", zeroStanding { id := "p1" }), ("p2", zeroStanding { id := "p2" })]
    { id := "m1", tournament_id := "t", round := 1, match_number := 1
      stage := MatchStage.group, group_number := some 1
      participant1_id := some "p1", participant2_id := some "p2"
      score := some "6-4", winner_id := none
      status := MatchStatus.completed }
    "p1" "p2" (zeroStanding { id := "p1" }) (zeroStanding { id := "p2" })
    rfl (by decide) rfl rfl (by decide) rfl rfl (by decide)

/-! ## C7: malformed set fragments are skipped, the match still counts -/

theorem foldl_tallyStep_erase (f : String) (hbad : fragParse f = none) :
    ∀ (frags : List String) (acc : SetTally), f ∈ frags →
      frags.foldl tallyStep acc = (frags.erase f).foldl tallyStep acc := by
  intro frags
  induction frags with
  | nil => intro acc h; cases h
  | cons x xs ih =>
    intro acc hf
    rw [List.erase_cons]
    by_cases hx : x = f
    · subst hx
      rw [if_pos (by simp), List.foldl_cons]
      have hstep : tallyStep acc x = acc := by
        simp only [tallyStep, hbad]
      rw [hstep]
    · rw [if_neg (by simp [hx]), List.foldl_cons, List.foldl_cons]
      apply ih
      rcases List.mem_cons.mp hf with h | h
      · exact absurd h.symm hx
      · exact h

theorem setsTally_erase (frags : List String) (f : String) (hf : f ∈ frags)
    (hbad : fragParse f = none) :
    setsTally frags = setsTally (frags.erase f) :=
  foldl_tallyStep_erase f hbad frags ⟨0, 0, 0, 0⟩ hf

/-- C7: a completed match whose score contains a fragment that does not
parse still counts fully toward `played` / `won` / `lost` (3 points to the
winner), while the malformed fragment contributes nothing to the set/game
counters: the tally equals the tally of the fragment list with that
fragment removed. -/
theorem C7_malformed_fragment_skipped (st : StandingsMap) (m : TournamentMatch)
    (i1 i2 w : String) (s1 s2 : GroupStanding) (sc f : String)
    (hst : m.status = MatchStatus.completed)
    (hscore : m.score = some sc) (hne0 : sc ≠ "")
    (h1 : m.participant1_id = some i1) (h2 : m.participant2_id = some i2)
    (hne : i1 ≠ i2)
    (hg1 : mapGet i1 st = some s1) (hg2 : mapGet i2 st = some s2)
    (hw : m.winner_id = some w) (hwin : w = i1 ∨ w = i2)
    (hf : f ∈ scoreFragments sc) (hbad : fragParse f = none) :
    setsTally (scoreFragments sc) = setsTally ((scoreFragments sc).erase f) ∧
    ∃ s1' s2', mapGet i1 (processMatch st m) = some s1' ∧
      mapGet i2 (processMatch st m) = some s2' ∧
      s1'.played = s1.played + 1 ∧ s2'.played = s2.played + 1 ∧
      s1'.sets_won = s1.sets_won + (setsTally ((scoreFragments sc).erase f)).p1Sets ∧
      s1'.games_won = s1.games_won + (setsTally ((scoreFragments sc).erase f)).p1Games ∧
      s2'.sets_won = s2.sets_won + (setsTally ((scoreFragments sc).erase f)).p2Sets ∧
      s2'.games_won = s2.games_won + (setsTally ((scoreFragments sc).erase f)).p2Games ∧
      (w = i1 → s1'.won = s1.won + 1 ∧ s1'.points = s1.points + 3 ∧
        s2'.lost = s2.lost + 1) ∧
      (w = i2 → s2'.won = s2.won + 1 ∧ s2'.points = s2.points + 3 ∧
        s1'.lost = s1.lost + 1) := by
  have herase := setsTally_erase (scoreFragments sc) f hf hbad
  refine ⟨herase, ?_⟩
  rw [← herase]
  by_cases hcase : w = i1
  · have hwe : m.winner_id = some i1 := by rw [hw, hcase]
    simp only [processMatch, h1, h2, hg1, hg2, hscore, Option.getD_some, if_pos hwe]
    rw [mapGet_mapUpdate_ne i1 i2 (Ne.symm hne), mapGet_mapUpdate_self,
      mapGet_mapUpdate_ne i1 i2 (Ne.symm hne), mapGet_mapUpdate_self,
      mapGet_mapUpdate_self, mapGet_mapUpdate_ne i2 i1 hne,
      mapGet_mapUpdate_self, mapGet_mapUpdate_ne i2 i1 hne, hg1, hg2]
    refine ⟨_, _, rfl, rfl, rfl, rfl, rfl, rfl, rfl, rfl,
      fun _ => ⟨rfl, rfl, rfl⟩, fun hwi2 => absurd (hcase.symm.trans hwi2) hne⟩
  · have hwi2 : w = i2 := hwin.resolve_left hcase
    have hwe : ¬m.winner_id = some i1 := by
      rw [hw]
      intro hcon
      injection hcon with hcon
      exact hcase hcon
    simp only [processMatch, h1, h2, hg1, hg2, hscore, Option.getD_some, if_neg hwe]
    rw [mapGet_mapUpdate_self, mapGet_mapUpdate_ne i1 i2 (Ne.symm hne),
      mapGet_mapUpdate_ne i1 i2 (Ne.symm hne), mapGet_mapUpdate_self,
      mapGet_mapUpdate_ne i2 i1 hne, mapGet_mapUpdate_self,
      mapGet_mapUpdate_self, mapGet_mapUpdate_ne i2 i1 hne, hg1, hg2]
    exact ⟨_, _, rfl, rfl, rfl, rfl, rfl, rfl, rfl, rfl,
      fun hwi1 => absurd hwi1 hcase, fun _ => ⟨rfl, rfl, rfl⟩⟩

/-- C7 witness: score `"6-4, x-y, 7-5"` with the malformed middle fragment. -/
theorem C7_malformed_fragment_skipped_witness :
    setsTally (scoreFragments "6-4, x-y, 7-5") =
      setsTally ((scoreFragments "6-4, x-y, 7-5").erase "x-y") ∧
    ∃ s1' s2',
      mapGet "p1" (processMatch
        [("p1", zeroStanding { id := "p1" }), ("p2", zeroStanding { id := "p2" })]
        { id := "m1", tournament_id := "t", round := 1, match_number := 1
          stage := MatchStage.group, group_number := some 1
          participant1_id := some "p1", participant2_id := some "p2"
          score := some "6-4, x-y, 7-5", winner_id := some "p1"
          status := MatchStatus.completed }) = some s1' ∧
      mapGet "p2" (processMatch
        [("p1", zeroStanding { id := "p1" }), ("p2", zeroStanding { id := "p2" })]
        { id := "m1", tournament_id := "t", round := 1, match_number := 1
          stage := MatchStage.group, group_number := some 1
          participant1_id := some "p1", participant2_id := some "p2"
          score := some "6-4, x-y, 7-5", winner_id := some "p1"
          status := MatchStatus.completed }) = some s2' ∧
      s1'.played = (zeroStanding { id := "p1" }).played + 1 ∧
      s2'.played = (zeroStanding { id := "p2" }).played + 1 ∧
      s1'.sets_won = (zeroStanding { id := "p1" }).sets_won +
        (setsTally ((scoreFragments "6-4, x-y, 7-5").erase "x-y")).p1Sets ∧
      s1'.games_won = (zeroStanding { id := "p1" }).games_won +
        (setsTally ((scoreFragments "6-4, x-y, 7-5").erase "x-y")).p1Games ∧
      s2'.sets_won = (zeroStanding { id := "p2" }).sets_won +
        (setsTally ((scoreFragments "6-4, x-y, 7-5").erase "x-y")).p2Sets ∧
      s2'.games_won = (zeroStanding { id := "p2" }).games_won +
        (setsTally ((scoreFragments "6-4, x-y, 7-5").erase "x-y")).p2Games ∧
      ("p1" = "p1" → s1'.won = (zeroStanding { id := "p1" }).won + 1 ∧
        s1'.points = (zeroStanding { id := "p1" }).points + 3 ∧
        s2'.lost = (zeroStanding { id := "p2" }).lost + 1) ∧
      ("p1" = "p2" → s2'.won = (zeroStanding { id := "p2" }).won + 1 ∧
        s2'.points = (zeroStanding { id := "p2" }).points + 3 ∧
        s1'.lost = (zeroStanding { id := "p1" }).lost + 1) :=
  C7_malformed_fragment_skipped
    [("p1", zeroStanding { id := "p1" }), ("p2", zeroStanding { id := "p2" })]
    { id := "m1", tournament_id := "t", round := 1, match_number := 1
      stage := MatchStage.group, group_number := some 1
      participant1_id := some "p1", participant2_id := some "p2"
      score := some "6-4, x-y, 7-5", winner_id := some "p1"
      status := MatchStatus.completed }
    "p1" "p2" "p1" (zeroStanding { id := "p1" }) (zeroStanding { id := "p2" })
    "6-4, x-y, 7-5" "x-y"
    rfl rfl (by decide) rfl rfl (by decide) rfl rfl rfl (Or.inl rfl)
    (by decide) (by decide)

/-! ## Sorting lemmas for `jsSortStable` -/

theorem insertByCmp_perm (cmp : α → α → Int) (a : α) :
    ∀ l : List α, List.Perm (insertByCmp cmp a l) (a :: l) := by
  intro l
  induction l with
  | nil => exact List.Perm.refl _
  | cons b bs ih =>
    rw [insertByCmp]
    by_cases h : cmp a b > 0
    · rw [if_pos h]
      exact (ih.cons b).trans (List.Perm.swap a b bs)
    · rw [if_neg h]

theorem jsSortStable_perm (cmp : α → α → Int) :
    ∀ l : List α, List.Perm (jsSortStable cmp l) l := by
  intro l
  induction l with
  | nil => exact List.Perm.refl _
  | cons x xs ih => exact (insertByCmp_perm cmp x _).trans (ih.cons x)

theorem pairwise_insertByCmp (cmp : α → α → Int)
    (hanti : ∀ a b, cmp a b > 0 → cmp b a ≤ 0)
    (htrans : ∀ a b c, cmp a b ≤ 0 → cmp b c ≤ 0 → cmp a c ≤ 0) (a : α) :
    ∀ l : List α, List.Pairwise (fun x y => cmp x y ≤ 0) l →
      List.Pairwise (fun x y => cmp x y ≤ 0) (insertByCmp cmp a l) := by
  intro l
  induction l with
  | nil =>
    intro _
    exact List.Pairwise.cons (fun x hx => absurd hx (List.not_mem_nil x))
      List.Pairwise.nil
  | cons b bs ih =>
    intro h
    rw [List.pairwise_cons] at h
    obtain ⟨hb, hbs⟩ := h
    rw [insertByCmp]
    by_cases hgt : cmp a b > 0
    · rw [if_pos hgt, List.pairwise_cons]
      refine ⟨?_, ih hbs⟩
      intro x hx
      rcases List.mem_cons.mp ((insertByCmp_perm cmp a bs).mem_iff.mp hx) with heq | hx2
      · subst heq
        exact hanti x b hgt
      · exact hb x hx2
    · rw [if_neg hgt, List.pairwise_cons]
      have hab : cmp a b ≤ 0 := by omega
      refine ⟨?_, List.pairwise_cons.mpr ⟨hb, hbs⟩⟩
      intro x hx
      rcases List.mem_cons.mp hx with heq | hx2
      · subst heq
        exact hab
      · exact htrans a b x hab (hb x hx2)

theorem jsSortStable_pairwise (cmp : α → α → Int)
    (hanti : ∀ a b, cmp a b > 0 → cmp b a ≤ 0)
    (htrans : ∀ a b c, cmp a b ≤ 0 → cmp b c ≤ 0 → cmp a c ≤ 0) :
    ∀ l : List α, List.Pairwise (fun x y => cmp x y ≤ 0) (jsSortStable cmp l) := by
  intro l
  induction l with
  | nil => exact List.Pairwise.nil
  | cons x xs ih => exact pairwise_insertByCmp cmp hanti htrans x _ ih

theorem filter_insertByCmp (cmp : α → α → Int) (p : α → Bool)
    (hkey : ∀ x y, p x = true → p y = true → cmp x y = 0) (a : α) :
    ∀ l : List α,
      (insertByCmp cmp a l).filter p =
        if p a then a :: l.filter p else l.filter p := by
  intro l
  induction l with
  | nil =>
    cases hpa : p a <;> simp [insertByCmp, List.filter, hpa]
  | cons b bs ih =>
    rw [insertByCmp]
    by_cases hgt : cmp a b > 0
    · rw [if_pos hgt, List.filter_cons, ih]
      by_cases hpa : p a = true
      · have hpb : p b = false := by
          cases hpbv : p b with
          | false => rfl
          | true => exact absurd (hkey a b hpa hpbv) (by omega)
        rw [hpb, if_pos hpa, if_pos hpa, List.filter_cons, hpb]
        simp
      · have hpa' : p a = false := by
          cases hpav : p a with
          | false => rfl
          | true => exact absurd hpav hpa
        rw [hpa', List.filter_cons]
        simp only [Bool.false_eq_true, if_false]
    · rw [if_neg hgt, List.filter_cons]

theorem jsSortStable_filter (cmp : α → α → Int) (p : α → Bool)
    (hkey : ∀ x y, p x = true → p y = true → cmp x y = 0) :
    ∀ l : List α, (jsSortStable cmp l).filter p = l.filter p := by
  intro l
  induction l with
  | nil => rfl
  | cons x xs ih =>
    have hstep := filter_insertByCmp cmp p hkey x (jsSortStable cmp xs)
    calc (jsSortStable cmp (x :: xs)).filter p
        = if p x then x :: (jsSortStable cmp xs).filter p
          else (jsSortStable cmp xs).filter p := hstep
      _ = if p x then x :: xs.filter p else xs.filter p := by rw [ih]
      _ = (x :: xs).filter p := (List.filter_cons ..).symm

/-! ## Facts about the standings comparator -/

theorem standingCompare_antisym (a b : GroupStanding)
    (h : standingCompare a b > 0) : standingCompare b a ≤ 0 := by
  simp only [standingCompare, setDiff, gameDiff] at h ⊢
  split_ifs at h ⊢ <;> omega

theorem standingCompare_le_trans (a b c : GroupStanding)
    (h1 : standingCompare a b ≤ 0) (h2 : standingCompare b c ≤ 0) :
    standingCompare a c ≤ 0 := by
  simp only [standingCompare, setDiff, gameDiff] at h1 h2 ⊢
  split_ifs at h1 h2 ⊢ <;> omega

theorem standingCompare_eq_of_key (x y : GroupStanding)
    (hp : x.points = y.points) (hs : setDiff x = setDiff y)
    (hg : gameDiff x = gameDiff y) : standingCompare x y = 0 := by
  simp only [standingCompare, setDiff, gameDiff] at hs hg ⊢
  split_ifs <;> omega

/-! ## Structure of the standings table -/

theorem mapUpdate_map_fst (k : String) (f : GroupStanding → GroupStanding) :
    ∀ st : StandingsMap, (mapUpdate k f st).map Prod.fst = st.map Prod.fst := by
  intro st
  induction st with
  | nil => rfl
  | cons e rest ih =>
    obtain ⟨k', v⟩ := e
    by_cases h : k' = k <;> simp [mapUpdate, h, ih]

theorem mapUpdate_map_participant (k : String) (f : GroupStanding → GroupStanding)
    (hf : ∀ s, (f s).participant = s.participant) :
    ∀ st : StandingsMap,
      (mapUpdate k f st).map (fun e => e.2.participant) =
        st.map (fun e => e.2.participant) := by
  intro st
  induction st with
  | nil => rfl
  | cons e rest ih =>
    obtain ⟨k', v⟩ := e
    by_cases h : k' = k <;> simp [mapUpdate, h, ih, hf]

theorem processMatch_map_participant (st : StandingsMap) (m : TournamentMatch) :
    (processMatch st m).map (fun e => e.2.participant) =
      st.map (fun e => e.2.participant) := by
  cases h1 : m.participant1_id with
  | none => simp [processMatch, h1]
  | some i1 =>
    cases h2 : m.participant2_id with
    | none => simp [processMatch, h1, h2]
    | some i2 =>
      cases hg1 : mapGet i1 st with
      | none => simp [processMatch, h1, h2, hg1]
      | some s1 =>
        cases hg2 : mapGet i2 st with
        | none => simp [processMatch, h1, h2, hg1, hg2]
        | some s2 =>
          simp only [processMatch, h1, h2, hg1, hg2]
          split <;>
          · refine (mapUpdate_map_participant _ _ ?_ _).trans
              ((mapUpdate_map_participant _ _ ?_ _).trans
                ((mapUpdate_map_participant _ _ ?_ _).trans
                  (mapUpdate_map_participant _ _ ?_ _)))
            all_goals intro s
            all_goals rfl

theorem foldl_processMatch_map_participant :
    ∀ (l : List TournamentMatch) (st : StandingsMap),
      ((l.foldl processMatch st).map (fun e => e.2.participant)) =
        st.map (fun e => e.2.participant) := by
  intro l
  induction l with
  | nil => intro st; rfl
  | cons m ms ih =>
    intro st
    rw [List.foldl_cons, ih (processMatch st m), processMatch_map_participant]

theorem mapSet_not_mem (k : String) (v : GroupStanding) :
    ∀ st : StandingsMap, k ∉ st.map Prod.fst → mapSet k v st = st ++ [(k, v)] := by
  intro st
  induction st with
  | nil => intro _; rfl
  | cons e rest ih =>
    obtain ⟨k', v'⟩ := e
    intro hmem
    rw [List.map_cons, List.mem_cons] at hmem
    push_neg at hmem
    rw [mapSet, if_neg (fun h => hmem.1 h.symm), ih hmem.2, List.cons_append]

theorem foldl_mapSet_eq :
    ∀ (ps : List TournamentParticipant) (acc : StandingsMap),
      (ps.map TournamentParticipant.id).Nodup →
      (∀ p ∈ ps, p.id ∉ acc.map Prod.fst) →
      ps.foldl (fun st p => mapSet p.id (zeroStanding p) st) acc =
        acc ++ ps.map (fun p => (p.id, zeroStanding p)) := by
  intro ps
  induction ps with
  | nil => intro acc _ _; simp
  | cons p ps ih =>
    intro acc hnd hmem
    rw [List.map_cons, List.nodup_cons] at hnd
    rw [List.foldl_cons, mapSet_not_mem _ _ acc (hmem p (List.mem_cons_self ..))]
    rw [ih (acc ++ [(p.id, zeroStanding p)]) hnd.2 ?_, List.map_cons,
      List.append_assoc, List.singleton_append]
    intro q hq
    rw [List.map_append, List.mem_append]
    rintro (hin | hin)
    · exact hmem q (List.mem_cons_of_mem p hq) hin
    · rw [List.map_singleton, List.mem_singleton] at hin
      have hin2 : q.id = p.id := hin
      exact hnd.1 (hin2 ▸ List.mem_map_of_mem TournamentParticipant.id hq)

theorem initStandings_eq (ps : List TournamentParticipant)
    (h : (ps.map TournamentParticipant.id).Nodup) :
    initStandings ps = ps.map (fun p => (p.id, zeroStanding p)) := by
  rw [initStandings, foldl_mapSet_eq ps [] h (by intro p _ hc; cases hc),
    List.nil_append]

theorem standingsTable_map_participant (ps : List TournamentParticipant)
    (ms : List TournamentMatch) (h : (ps.map TournamentParticipant.id).Nodup) :
    (standingsTable ps ms).map (fun e => e.2.participant) = ps := by
  rw [standingsTable, foldl_processMatch_map_participant, initStandings_eq ps h,
    List.map_map]
  have : ((fun e : String × GroupStanding => e.2.participant) ∘
      fun p => (p.id, zeroStanding p)) = fun p : TournamentParticipant => p := by
    funext p
    rfl
  rw [this, List.map_id']

/-! ## C6: sort order and stability of the standings list -/

/-- C6: the standings list is sorted by the comparator (points descending,
then set differential, then game differential) — in particular a row with
strictly more points always precedes one with fewer — the sorted output is a
permutation of the computed rows, rows that tie on all three keys keep their
relative order from the pre-sort table (stability, expressed as filter
invariance per key triple), and the pre-sort table lists the participants in
input order. -/
theorem C6_sort_order (ps : List TournamentParticipant) (ms : List TournamentMatch)
    (hnodup : (ps.map TournamentParticipant.id).Nodup) :
    List.Pairwise (fun a b => standingCompare a b ≤ 0)
      (calculateGroupStandings ps ms) ∧
    List.Perm (calculateGroupStandings ps ms)
      ((standingsTable ps ms).map Prod.snd) ∧
    (∀ (P : Nat) (S G : Int),
      (calculateGroupStandings ps ms).filter (fun s =>
        decide (s.points = P) && decide (setDiff s = S) && decide (gameDiff s = G)) =
      ((standingsTable ps ms).map Prod.snd).filter (fun s =>
        decide (s.points = P) && decide (setDiff s = S) && decide (gameDiff s = G))) ∧
    ((standingsTable ps ms).map Prod.snd).map (fun s => s.participant) = ps := by
  refine ⟨?_, ?_, ?_, ?_⟩
  · exact jsSortStable_pairwise standingCompare standingCompare_antisym
      standingCompare_le_trans _
  · exact jsSortStable_perm standingCompare _
  · intro P S G
    apply jsSortStable_filter
    intro x y hx hy
    simp only [Bool.and_eq_true, decide_eq_true_eq] at hx hy
    exact standingCompare_eq_of_key x y (hx.1.1.trans hy.1.1.symm)
      (hx.1.2.trans hy.1.2.symm) (hx.2.trans hy.2.symm)
  · rw [List.map_map]
    exact standingsTable_map_participant ps ms hnodup

/-- C6 witness: two participants with one completed match. -/
theorem C6_sort_order_witness :
    List.Pairwise (fun a b => standingCompare a b ≤ 0)
      (calculateGroupStandings [{ id := "p1" }, { id := "p2" }]
        [{ id := "m1", tournament_id := "t", round := 1, match_number := 1
           stage := MatchStage.group, group_number := some 1
           participant1_id := some "p1", participant2_id := some "p2"
           score := some "6-4, 6-2", winner_id := some "p1"
           status := MatchStatus.completed }]) ∧
    List.Perm
      (calculateGroupStandings [{ id := "p1" }, { id := "p2" }]
        [{ id := "m1", tournament_id := "t", round := 1, match_number := 1
           stage := MatchStage.group, group_number := some 1
           participant1_id := some "p1", participant2_id := some "p2"
           score := some "6-4, 6-2", winner_id := some "p1"
           status := MatchStatus.completed }])
      ((standingsTable [{ id := "p1" }, { id := "p2" }]
        [{ id := "m1", tournament_id := "t", round := 1, match_number := 1
           stage := MatchStage.group, group_number := some 1
           participant1_id := some "p1", participant2_id := some "p2"
           score := some "6-4, 6-2", winner_id := some "p1"
           status := MatchStatus.completed }]).map Prod.snd) ∧
    (∀ (P : Nat) (S G : Int),
      (calculateGroupStandings [{ id := "p1" }, { id := "p2" }]
        [{ id := "m1", tournament_id := "t", round := 1, match_number := 1
           stage := MatchStage.group, group_number := some 1
           participant1_id := some "p1", participant2_id := some "p2"
           score := some "6-4, 6-2", winner_id := some "p1"
           status := MatchStatus.completed }]).filter (fun s =>
        decide (s.points = P) && decide (setDiff s = S) && decide (gameDiff s = G)) =
      ((standingsTable [{ id := "p1" }, { id := "p2" }]
        [{ id := "m1", tournament_id := "t", round := 1, match_number := 1
           stage := MatchStage.group, group_number := some 1
           participant1_id := some "p1", participant2_id := some "p2"
           score := some "6-4, 6-2", winner_id := some "p1"
           status := MatchStatus.completed }]).map Prod.snd).filter (fun s =>
        decide (s.points = P) && decide (setDiff s = S) && decide (gameDiff s = G))) ∧
    ((standingsTable [{ id := "p1" }, { id := "p2" }]
        [{ id := "m1", tournament_id := "t", round := 1, match_number := 1
           stage := MatchStage.group, group_number := some 1
           participant1_id := some "p1", participant2_id := some "p2"
           score := some "6-4, 6-2", winner_id := some "p1"
           status := MatchStatus.completed }]).map Prod.snd).map
      (fun s => s.participant) = [{ id := "p1" }, { id := "p2" }] :=
  C6_sort_order [{ id := "p1" }, { id := "p2" }]
    [{ id := "m1", tournament_id := "t", round := 1, match_number := 1
       stage := MatchStage.group, group_number := some 1
       participant1_id := some "p1", participant2_id := some "p2"
       score := some "6-4, 6-2", winner_id := some "p1"
       status := MatchStatus.completed }] (by decide)

/-! ## Round-robin rotation: index characterisation

After `k` rotations, position `j` of the player list holds the participant
whose original index is `tokenAt M k j` (anchor at position 0 fixed; the
other `M - 1` positions cycle).  `posOf M k w` is the inverse map: the
position of original index `w` in round `k`. -/

/-- Original index held at position `j` after one rotation. -/
def tokenStep (M j : Nat) : Nat :=
  if j = 0 then 0 else if j = 1 then M - 1 else j - 1

/-- Original index held at position `j` after `k` rotations. -/
def tokenAt (M k j : Nat) : Nat :=
  if j = 0 then 0 else 1 + ((j - 1 + k * (M - 2)) % (M - 1))

/-- Position of original index `w` after `k` rotations. -/
def posOf (M k w : Nat) : Nat :=
  if w = 0 then 0 else 1 + ((w - 1 + k) % (M - 1))

theorem length_rotateCircle (pl : List TournamentParticipant) :
    (rotateCircle pl).length = pl.length := by
  cases hpl : pl.getLast? with
  | none =>
    rw [rotateCircle, hpl]
  | some last =>
    have hne : pl ≠ [] := by
      intro hcon
      rw [hcon] at hpl
      cases hpl
    rw [rotateCircle, hpl]
    have hlen : pl.dropLast.length = pl.length - 1 := List.length_dropLast pl
    have hsp : ∀ (x : TournamentParticipant) (l : List TournamentParticipant),
        (spliceAt1 x l).length = l.length + 1 := by
      intro x l
      cases l <;> rfl
    rw [hsp, hlen]
    have : 1 ≤ pl.length := List.length_pos.mpr hne
    omega

theorem length_rotateCircle_iterate (k : Nat) (pl : List TournamentParticipant) :
    (rotateCircle^[k] pl).length = pl.length := by
  induction k with
  | zero => rfl
  | succ k ih =>
    rw [Function.iterate_succ_apply', length_rotateCircle, ih]

theorem tokenStep_lt (M j : Nat) (hM : 1 ≤ M) (hj : j < M) : tokenStep M j < M := by
  rw [tokenStep]
  split
  · omega
  · split <;> omega

theorem tokenAt_lt (M k j : Nat) (hM : 2 ≤ M) (hj : j < M) : tokenAt M k j < M := by
  rw [tokenAt]
  split
  · omega
  · have : (j - 1 + k * (M - 2)) % (M - 1) < M - 1 := Nat.mod_lt _ (by omega)
    omega

theorem posOf_lt (M k w : Nat) (hM : 2 ≤ M) (hw : w < M) : posOf M k w < M := by
  rw [posOf]
  split
  · omega
  · have : (w - 1 + k) % (M - 1) < M - 1 := Nat.mod_lt _ (by omega)
    omega

theorem rotateCircle_getD (pl : List TournamentParticipant) (j : Nat)
    (hM : 2 ≤ pl.length) (hj : j < pl.length) :
    (rotateCircle pl).getD j noParticipant =
      pl.getD (tokenStep pl.length j) noParticipant := by
  match pl, hM with
  | x :: y :: t, _ =>
    have hne : (x :: y :: t) ≠ [] := by simp
    have hrot : rotateCircle (x :: y :: t) =
        x :: (x :: y :: t).getLast hne :: (y :: t).dropLast := by
      rw [rotateCircle, List.getLast?_eq_getLast _ hne, List.dropLast_cons₂]
      rfl
    rw [hrot]
    match j with
    | 0 =>
      rw [tokenStep]
      rfl
    | 1 =>
      have h1 : tokenStep (x :: y :: t).length 1 = (x :: y :: t).length - 1 := by
        rw [tokenStep]
        rfl
      rw [h1]
      have hlhs : (x :: (x :: y :: t).getLast hne :: (y :: t).dropLast).getD 1
          noParticipant = (x :: y :: t).getLast hne := rfl
      rw [hlhs, List.getLast_eq_getElem _ hne, List.getD_eq_getElem _ _ (by simp)]
    | j + 2 =>
      have hstep : tokenStep (x :: y :: t).length (j + 2) = j + 1 := by
        rw [tokenStep]
        rfl
      rw [hstep]
      have hjt : j < t.length := by
        simp only [List.length_cons] at hj
        omega
      have hlhs : (x :: (x :: y :: t).getLast hne :: (y :: t).dropLast).getD (j + 2)
          noParticipant = ((y :: t).dropLast).getD j noParticipant := rfl
      have hrhs : (x :: y :: t).getD (j + 1) noParticipant =
          (y :: t).getD j noParticipant := rfl
      rw [hlhs, hrhs]
      have hdl : j < ((y :: t).dropLast).length := by
        rw [List.length_dropLast]
        simp only [List.length_cons]
        omega
      rw [List.getD_eq_getElem _ _ hdl,
        List.getD_eq_getElem _ _ (by simp only [List.length_cons]; omega),
        List.getElem_dropLast]

theorem tokenAt_zero (M j : Nat) (hj : j < M) : tokenAt M 0 j = j := by
  rw [tokenAt]
  split
  · omega
  · rw [Nat.zero_mul, Nat.add_zero, Nat.mod_eq_of_lt (by omega)]
    omega

theorem tokenAt_succ (M k j : Nat) (hM : 2 ≤ M) (hj : j < M) :
    tokenAt M (k + 1) j = tokenAt M k (tokenStep M j) := by
  by_cases h0 : j = 0
  · subst h0
    rw [tokenStep, tokenAt, tokenAt]
    rfl
  · by_cases h1 : j = 1
    · subst h1
      have hs : tokenStep M 1 = M - 1 := by rw [tokenStep]; rfl
      rw [hs, tokenAt, tokenAt, if_neg h0, if_neg (by omega)]
      have e2 : 1 - 1 + (k + 1) * (M - 2) = M - 1 - 1 + k * (M - 2) := by
        have h3 : (k + 1) * (M - 2) = k * (M - 2) + (M - 2) := by ring
        omega
      rw [e2]
    · have hs : tokenStep M j = j - 1 := by
        rw [tokenStep, if_neg h0, if_neg h1]
      rw [hs, tokenAt, tokenAt, if_neg h0, if_neg (by omega)]
      have e1 : j - 1 + (k + 1) * (M - 2) = (j - 1 - 1 + k * (M - 2)) + (M - 1) := by
        have : (k + 1) * (M - 2) = k * (M - 2) + (M - 2) := by ring
        omega
      rw [e1, Nat.add_mod_right]

theorem rotate_iterate_getD (k : Nat) :
    ∀ (pl : List TournamentParticipant) (j : Nat), 2 ≤ pl.length → j < pl.length →
      (rotateCircle^[k] pl).getD j noParticipant =
        pl.getD (tokenAt pl.length k j) noParticipant := by
  induction k with
  | zero =>
    intro pl j hM hj
    rw [Function.iterate_zero_apply, tokenAt_zero _ _ hj]
  | succ k ih =>
    intro pl j hM hj
    rw [Function.iterate_succ_apply']
    have hlen : (rotateCircle^[k] pl).length = pl.length :=
      length_rotateCircle_iterate k pl
    rw [rotateCircle_getD _ j (by omega) (by omega), hlen,
      ih pl (tokenStep pl.length j) hM (tokenStep_lt _ _ (by omega) hj),
      tokenAt_succ _ _ _ hM hj]

theorem tokenAt_posOf (M k w : Nat) (hM : 2 ≤ M) (hw : w < M) :
    tokenAt M k (posOf M k w) = w := by
  by_cases h0 : w = 0
  · subst h0
    rw [posOf, tokenAt]
    rfl
  · rw [posOf, if_neg h0, tokenAt, if_neg (by omega)]
    have e1 : 1 + (w - 1 + k) % (M - 1) - 1 = (w - 1 + k) % (M - 1) := by omega
    rw [e1, Nat.mod_add_mod]
    have e2 : w - 1 + k + k * (M - 2) = w - 1 + k * (M - 1) := by
      have h3 : k * (M - 1) = k * (M - 2) + k := by
        have h4 : M - 1 = (M - 2) + 1 := by omega
        rw [h4]
        ring
      omega
    rw [e2, Nat.add_mul_mod_self_right, Nat.mod_eq_of_lt (by omega)]
    omega

theorem tokenAt_inj (M k j j' : Nat) (hM : 2 ≤ M) (hj : j < M) (hj' : j' < M)
    (heq : tokenAt M k j = tokenAt M k j') : j = j' := by
  by_cases h0 : j = 0 <;> by_cases h0' : j' = 0
  · omega
  · rw [tokenAt, if_pos h0, tokenAt, if_neg h0'] at heq
    omega
  · rw [tokenAt, if_neg h0, tokenAt, if_pos h0'] at heq
    omega
  · rw [tokenAt, if_neg h0, tokenAt, if_neg h0'] at heq
    have heq2 : (j - 1 + k * (M - 2)) % (M - 1) = (j' - 1 + k * (M - 2)) % (M - 1) := by
      omega
    have hcan : j - 1 ≡ j' - 1 [MOD M - 1] :=
      Nat.ModEq.add_right_cancel' (k * (M - 2)) heq2
    have hj1 : j - 1 < M - 1 := by omega
    have hj1' : j' - 1 < M - 1 := by omega
    have := hcan
    rw [Nat.ModEq, Nat.mod_eq_of_lt hj1, Nat.mod_eq_of_lt hj1'] at this
    omega

theorem tokenAt_eq_iff (M k mi u : Nat) (hM : 2 ≤ M) (hmi : mi < M) (hu : u < M) :
    tokenAt M k mi = u ↔ mi = posOf M k u := by
  constructor
  · intro h
    exact tokenAt_inj M k mi (posOf M k u) hM hmi (posOf_lt M k u hM hu)
      (h.trans (tokenAt_posOf M k u hM hu).symm)
  · intro h
    rw [h]
    exact tokenAt_posOf M k u hM hu

theorem posOf_inj (M k u v : Nat) (hM : 2 ≤ M) (hu : u < M) (hv : v < M)
    (h : posOf M k u = posOf M k v) : u = v := by
  have := congrArg (tokenAt M k) h
  rw [tokenAt_posOf M k u hM hu, tokenAt_posOf M k v hM hv] at this
  exact this

/-! ## Counting helpers -/

theorem countP_filterMap_list {β : Type} (f : Nat → Option β) (p : β → Bool) :
    ∀ l : List Nat,
      (l.filterMap f).countP p =
        l.countP (fun a => ((f a).map p).getD false) := by
  intro l
  induction l with
  | nil => rfl
  | cons x xs ih =>
    rw [List.filterMap_cons]
    cases hfx : f x with
    | none =>
      rw [List.countP_cons, ih, hfx]
      simp
    | some b =>
      rw [List.countP_cons, List.countP_cons, ih, hfx]
      simp

theorem countP_range_unique (p : Nat → Bool) :
    ∀ c k0 : Nat, k0 < c → p k0 = true → (∀ i, i < c → p i = true → i = k0) →
      (List.range c).countP p = 1 := by
  intro c
  induction c with
  | zero => intro k0 hk0; omega
  | succ c ih =>
    intro k0 hk0 hp huniq
    rw [List.range_succ, List.countP_append, List.countP_cons, List.countP_nil]
    by_cases hlast : k0 = c
    · have hz : (List.range c).countP p = 0 := by
        rw [List.countP_eq_zero]
        intro x hx
        rw [List.mem_range] at hx
        intro hpx
        have := huniq x (by omega) hpx
        omega
      have hpc : p c = true := by rw [← hlast]; exact hp
      rw [hz, hpc]
      simp
    · have h1 : (List.range c).countP p = 1 :=
        ih k0 (by omega) hp (fun i hi hpi => huniq i (by omega) hpi)
      have hpc : p c = false := by
        cases hpc : p c with
        | false => rfl
        | true => exact absurd (huniq c (by omega) hpc).symm hlast
      rw [h1, hpc]
      simp

theorem countP_range_ne (p : Nat → Bool) (c a : Nat) (ha : a < c)
    (hp : ∀ i, i < c → (p i = true ↔ ¬ i = a)) :
    (List.range c).countP p = c - 1 := by
  have hlen := List.length_eq_countP_add_countP (l := List.range c) (p := p)
  have hnot : ((List.range c).countP fun i => decide ¬ p i = true) = 1 := by
    apply countP_range_unique _ c a ha
    · simp only [decide_eq_true_eq]
      intro hcon
      exact ((hp a ha).mp hcon) rfl
    · intro i hi
      simp only [decide_eq_true_eq]
      intro hnp
      by_contra hne
      exact hnp ((hp i hi).mpr hne)
  rw [List.length_range] at hlen
  omega

theorem length_filterMap_countP {β : Type} (f : Nat → Option β) :
    ∀ l : List Nat, (l.filterMap f).length = l.countP (fun a => (f a).isSome) := by
  intro l
  induction l with
  | nil => rfl
  | cons x xs ih =>
    rw [List.filterMap_cons]
    cases hfx : f x with
    | none =>
      rw [List.countP_cons, ih, hfx]
      simp
    | some b =>
      rw [List.length_cons, List.countP_cons, ih, hfx]
      simp

/-! ## Per-round pairing count -/

/-- Does a generated match hold exactly the unordered pair of ids
`{x, y}` in its two participant slots? -/
def pairPred (x y : String) (mt : RRMatch) : Bool :=
  (decide (mt.participant1_id = x) && decide (mt.participant2_id = y)) ||
  (decide (mt.participant1_id = y) && decide (mt.participant2_id = x))

theorem option_if_getD (c : Prop) [Decidable c] (mt : RRMatch) (p : RRMatch → Bool) :
    (((if c then some mt else none).map p).getD false = true) ↔ (c ∧ p mt = true) := by
  by_cases hc : c
  · rw [if_pos hc]
    simp [hc]
  · rw [if_neg hc]
    simp [hc]

theorem pairPred_true_iff (x y : String) (mt : RRMatch) :
    pairPred x y mt = true ↔
      ((mt.participant1_id = x ∧ mt.participant2_id = y) ∨
        (mt.participant1_id = y ∧ mt.participant2_id = x)) := by
  rw [pairPred]
  simp [Bool.or_eq_true, Bool.and_eq_true, decide_eq_true_eq]

theorem countP_congr_list {α : Type} (p q : α → Bool) :
    ∀ l : List α, (∀ a ∈ l, p a = q a) → l.countP p = l.countP q := by
  intro l
  induction l with
  | nil => intro _; rfl
  | cons x xs ih =>
    intro h
    rw [List.countP_cons, List.countP_cons, ih (fun a ha => h a (List.mem_cons_of_mem x ha)),
      h x (List.mem_cons_self ..)]

theorem rrRound_countP_pair (tid : String) (gn : Option Nat)
    (P : List TournamentParticipant) (hM : 2 ≤ P.length)
    (heven : P.length % 2 = 0)
    (hnodup : (P.map TournamentParticipant.id).Nodup)
    (u v : Nat) (hu : u < P.length) (hv : v < P.length) (huv : u ≠ v)
    (hbu : (P.getD u noParticipant).id ≠ "BYE")
    (hbv : (P.getD v noParticipant).id ≠ "BYE")
    (k roundIdx : Nat) :
    ((rrRoundMatches tid gn P.length (P.length / 2) roundIdx
        (rotateCircle^[k] P)).countP
      (pairPred (P.getD u noParticipant).id (P.getD v noParticipant).id)) =
      if posOf P.length k u + posOf P.length k v = P.length - 1 then 1 else 0 := by
  rw [rrRoundMatches, countP_filterMap_list]
  refine Eq.trans (countP_congr_list _ (fun mi => decide
    ((mi = posOf P.length k u ∧ P.length - 1 - mi = posOf P.length k v) ∨
      (mi = posOf P.length k v ∧ P.length - 1 - mi = posOf P.length k u)))
    (List.range (P.length / 2)) ?_) ?_
  · intro mi hmi
    rw [List.mem_range] at hmi
    have hmiM : mi < P.length := by omega
    have hawayM : P.length - 1 - mi < P.length := by omega
    simp only
    rw [rotate_iterate_getD k P mi hM hmiM,
      rotate_iterate_getD k P (P.length - 1 - mi) hM hawayM]
    have haM : tokenAt P.length k mi < P.length := tokenAt_lt _ _ _ hM hmiM
    have hbM : tokenAt P.length k (P.length - 1 - mi) < P.length :=
      tokenAt_lt _ _ _ hM hawayM
    have hid1 : ∀ w, w < P.length →
        ((P.getD (tokenAt P.length k w) noParticipant).id =
            (P.getD u noParticipant).id ↔ w = posOf P.length k u) := by
      intro w hw
      constructor
      · intro h
        rw [← tokenAt_eq_iff P.length k w u hM hw hu]
        exact getD_id_inj P hnodup _ u (tokenAt_lt _ _ _ hM hw) hu h
      · intro h
        rw [(tokenAt_eq_iff P.length k w u hM hw hu).mpr h]
    have hid2 : ∀ w, w < P.length →
        ((P.getD (tokenAt P.length k w) noParticipant).id =
            (P.getD v noParticipant).id ↔ w = posOf P.length k v) := by
      intro w hw
      constructor
      · intro h
        rw [← tokenAt_eq_iff P.length k w v hM hw hv]
        exact getD_id_inj P hnodup _ v (tokenAt_lt _ _ _ hM hw) hv h
      · intro h
        rw [(tokenAt_eq_iff P.length k w v hM hw hv).mpr h]
    by_cases hcond :
        ((mi = posOf P.length k u ∧ P.length - 1 - mi = posOf P.length k v) ∨
          (mi = posOf P.length k v ∧ P.length - 1 - mi = posOf P.length k u))
    · rw [decide_eq_true hcond, option_if_getD]
      refine ⟨?_, ?_⟩
      · rcases hcond with ⟨hp1, hp2⟩ | ⟨hp1, hp2⟩
        · rw [(hid1 mi hmiM).mpr hp1, (hid2 _ hawayM).mpr hp2]
          exact ⟨hbu, hbv⟩
        · rw [(hid2 mi hmiM).mpr hp1, (hid1 _ hawayM).mpr hp2]
          exact ⟨hbv, hbu⟩
      · rw [pairPred_true_iff]
        simp only
        rcases hcond with ⟨hp1, hp2⟩ | ⟨hp1, hp2⟩
        · exact Or.inl ⟨(hid1 mi hmiM).mpr hp1, (hid2 _ hawayM).mpr hp2⟩
        · exact Or.inr ⟨(hid2 mi hmiM).mpr hp1, (hid1 _ hawayM).mpr hp2⟩
    · rw [decide_eq_false hcond]
      by_contra hcon2
      rw [Bool.not_eq_false] at hcon2
      rw [option_if_getD] at hcon2
      obtain ⟨hguard, hpair⟩ := hcon2
      rw [pairPred_true_iff] at hpair
      apply hcond
      simp only at hpair
      rcases hpair with ⟨hp1, hp2⟩ | ⟨hp1, hp2⟩
      · exact Or.inl ⟨(hid1 mi hmiM).mp hp1, (hid2 _ hawayM).mp hp2⟩
      · exact Or.inr ⟨(hid2 mi hmiM).mp hp1, (hid1 _ hawayM).mp hp2⟩
  by_cases hsum : posOf P.length k u + posOf P.length k v = P.length - 1
  · rw [if_pos hsum]
    have hαM : posOf P.length k u < P.length := posOf_lt _ _ _ hM hu
    have hβM : posOf P.length k v < P.length := posOf_lt _ _ _ hM hv
    have hαβ : posOf P.length k u ≠ posOf P.length k v :=
      fun h => huv (posOf_inj _ _ _ _ hM hu hv h)
    rcases (by omega :
        (posOf P.length k u < P.length / 2 ∧ ¬ posOf P.length k v < P.length / 2) ∨
        (posOf P.length k v < P.length / 2 ∧ ¬ posOf P.length k u < P.length / 2)) with
      ⟨hαh, hβh⟩ | ⟨hβh, hαh⟩
    · apply countP_range_unique _ _ (posOf P.length k u) hαh
      · exact decide_eq_true (Or.inl ⟨rfl, by omega⟩)
      · intro i hi hpi
        simp only [decide_eq_true_eq] at hpi
        rcases hpi with ⟨h1, _⟩ | ⟨h1, _⟩
        · exact h1
        · omega
    · apply countP_range_unique _ _ (posOf P.length k v) hβh
      · exact decide_eq_true (Or.inr ⟨rfl, by omega⟩)
      · intro i hi hpi
        simp only [decide_eq_true_eq] at hpi
        rcases hpi with ⟨h1, _⟩ | ⟨h1, _⟩
        · omega
        · exact h1
  · rw [if_neg hsum, List.countP_eq_zero]
    intro mi hmi
    rw [List.mem_range] at hmi
    simp only [decide_eq_true_eq]
    intro hcon
    have hαM : posOf P.length k u < P.length := posOf_lt _ _ _ hM hu
    have hβM : posOf P.length k v < P.length := posOf_lt _ _ _ hM hv
    rcases hcon with ⟨h1, h2⟩ | ⟨h1, h2⟩ <;> omega

/-! ## Loop-level counting -/

theorem rrLoop_countP_sum (tid : String) (gn : Option Nat) (M half : Nat)
    (P : List TournamentParticipant) (p : RRMatch → Bool) (F : Nat → Nat)
    (hF : ∀ k roundIdx,
      ((rrRoundMatches tid gn M half roundIdx (rotateCircle^[k] P)).countP p) = F k) :
    ∀ fuel r0 k, ((rrLoop tid gn M half fuel r0 (rotateCircle^[k] P)).countP p) =
      ((List.range fuel).map (fun i => F (k + i))).sum := by
  intro fuel
  induction fuel with
  | zero => intro r0 k; rfl
  | succ fuel ih =>
    intro r0 k
    rw [rrLoop, List.countP_append, hF k r0]
    have hrot : rotateCircle (rotateCircle^[k] P) = rotateCircle^[k + 1] P :=
      (Function.iterate_succ_apply' rotateCircle k P).symm
    rw [hrot, ih (r0 + 1) (k + 1), List.range_succ_eq_map, List.map_cons,
      List.sum_cons, List.map_map, Nat.add_zero]
    congr 1
    refine congrArg List.sum ?_
    apply List.map_congr_left
    intro i _
    simp only [Function.comp_apply]
    congr 1
    omega

theorem sum_map_ite_eq_countP (cond : Nat → Prop) [DecidablePred cond] :
    ∀ c : Nat, ((List.range c).map (fun i => if cond i then 1 else 0)).sum =
      (List.range c).countP (fun i => decide (cond i)) := by
  intro c
  induction c with
  | zero => rfl
  | succ c ih =>
    rw [List.range_succ, List.map_append, List.sum_append, List.countP_append, ih]
    by_cases hc : cond c <;> simp [hc, List.countP_cons]

theorem sum_map_const_range (c : Nat) :
    ∀ fuel : Nat, ((List.range fuel).map (fun _ => c)).sum = fuel * c := by
  intro fuel
  induction fuel with
  | zero => simp
  | succ fuel ih =>
    rw [List.range_succ, List.map_append, List.sum_append, ih, Nat.succ_mul]
    simp

/-! ## Per-round match counts (bye filtering) -/

theorem rrRound_length_noBye (tid : String) (gn : Option Nat)
    (P : List TournamentParticipant) (hM : 2 ≤ P.length)
    (hb : ∀ w, w < P.length → (P.getD w noParticipant).id ≠ "BYE")
    (k roundIdx : Nat) :
    (rrRoundMatches tid gn P.length (P.length / 2) roundIdx
      (rotateCircle^[k] P)).length = P.length / 2 := by
  rw [rrRoundMatches, length_filterMap_countP]
  refine Eq.trans (countP_congr_list _ (fun _ => true) _ ?_) ?_
  · intro mi hmi
    rw [List.mem_range] at hmi
    have hmiM : mi < P.length := by omega
    have hawayM : P.length - 1 - mi < P.length := by omega
    simp only
    rw [rotate_iterate_getD k P mi hM hmiM,
      rotate_iterate_getD k P (P.length - 1 - mi) hM hawayM,
      if_pos ⟨hb _ (tokenAt_lt _ _ _ hM hmiM), hb _ (tokenAt_lt _ _ _ hM hawayM)⟩]
    rfl
  · rw [List.countP_true, List.length_range]

theorem rrRound_length_bye (tid : String) (gn : Option Nat)
    (P : List TournamentParticipant) (hM : 2 ≤ P.length)
    (heven : P.length % 2 = 0)
    (hb : ∀ w, w < P.length →
      ((P.getD w noParticipant).id = "BYE" ↔ w = P.length - 1))
    (k roundIdx : Nat) :
    (rrRoundMatches tid gn P.length (P.length / 2) roundIdx
      (rotateCircle^[k] P)).length = P.length / 2 - 1 := by
  rw [rrRoundMatches, length_filterMap_countP]
  have hγM : posOf P.length k (P.length - 1) < P.length :=
    posOf_lt _ _ _ hM (by omega)
  have key : ∀ mi, mi < P.length / 2 →
      ((((fun mi =>
        let home := (rotateCircle^[k] P).getD mi noParticipant
        let away := (rotateCircle^[k] P).getD (P.length - 1 - mi) noParticipant
        if home.id ≠ "BYE" ∧ away.id ≠ "BYE" then
          some ({ tournament_id := tid, round := roundIdx + 1, match_number := mi + 1
                  stage := if gn.isSome then MatchStage.group else MatchStage.knockout
                  group_number := gn, participant1_id := home.id
                  participant2_id := away.id } : RRMatch)
        else none) mi).isSome = true) ↔
        ¬(mi = posOf P.length k (P.length - 1) ∨
          P.length - 1 - mi = posOf P.length k (P.length - 1))) := by
    intro mi hmi
    have hmiM : mi < P.length := by omega
    have hawayM : P.length - 1 - mi < P.length := by omega
    simp only
    rw [rotate_iterate_getD k P mi hM hmiM,
      rotate_iterate_getD k P (P.length - 1 - mi) hM hawayM]
    have hbye1 : (P.getD (tokenAt P.length k mi) noParticipant).id = "BYE" ↔
        mi = posOf P.length k (P.length - 1) := by
      rw [hb _ (tokenAt_lt _ _ _ hM hmiM),
        tokenAt_eq_iff P.length k mi (P.length - 1) hM hmiM (by omega)]
    have hbye2 : (P.getD (tokenAt P.length k (P.length - 1 - mi)) noParticipant).id
        = "BYE" ↔ P.length - 1 - mi = posOf P.length k (P.length - 1) := by
      rw [hb _ (tokenAt_lt _ _ _ hM hawayM),
        tokenAt_eq_iff P.length k (P.length - 1 - mi) (P.length - 1) hM hawayM
          (by omega)]
    by_cases hguard : (P.getD (tokenAt P.length k mi) noParticipant).id ≠ "BYE" ∧
        (P.getD (tokenAt P.length k (P.length - 1 - mi)) noParticipant).id ≠ "BYE"
    · rw [if_pos hguard]
      simp only [Option.isSome_some, eq_self_iff_true, true_iff]
      rintro (hc | hc)
      · exact hguard.1 (hbye1.mpr hc)
      · exact hguard.2 (hbye2.mpr hc)
    · rw [if_neg hguard]
      simp only [Option.isSome_none, Bool.false_eq_true, false_iff, not_not]
      rcases not_and_or.mp hguard with hc | hc
      · rw [not_not] at hc
        exact Or.inl (hbye1.mp hc)
      · rw [not_not] at hc
        exact Or.inr (hbye2.mp hc)
  by_cases hgh : posOf P.length k (P.length - 1) < P.length / 2
  · apply countP_range_ne _ _ (posOf P.length k (P.length - 1)) hgh
    intro i hi
    rw [key i hi]
    constructor
    · intro h hc
      exact h (Or.inl hc)
    · intro h
      rintro (hc | hc)
      · exact h hc
      · omega
  · have ha2 : P.length - 1 - posOf P.length k (P.length - 1) < P.length / 2 := by
      omega
    apply countP_range_ne _ _ _ ha2
    intro i hi
    rw [key i hi]
    constructor
    · intro h hc
      apply h
      right
      omega
    · intro h
      rintro (hc | hc)
      · omega
      · exact h (by omega)

/-! ## Each pair of positions is matched in exactly one round -/

theorem two_mul_cancel_mod (m k k' : Nat) (hm : m % 2 = 1) (hk : k < m) (hk' : k' < m)
    (h : (2 * k) % m = (2 * k') % m) : k = k' := by
  have hg : Nat.gcd m 2 = 1 := by
    have h2 : ¬ 2 ∣ m := by omega
    exact Nat.coprime_comm.mp ((Nat.Prime.coprime_iff_not_dvd Nat.prime_two).mpr h2)
  have hmod : k ≡ k' [MOD m] := Nat.ModEq.cancel_left_of_coprime hg h
  rw [Nat.ModEq, Nat.mod_eq_of_lt hk, Nat.mod_eq_of_lt hk'] at hmod
  exact hmod

theorem posOf_pair_round_count (M : Nat) (hM : 2 ≤ M) (heven : M % 2 = 0)
    (u v : Nat) (hu : u < M) (hv : v < M) (huv : u ≠ v) :
    ((List.range (M - 1)).countP fun k =>
      decide (posOf M k u + posOf M k v = M - 1)) = 1 := by
  have hm1 : 1 ≤ M - 1 := by omega
  by_cases hu0 : u = 0
  · subst hu0
    have hv1 : 1 ≤ v := by omega
    apply countP_range_unique _ (M - 1) (M - 1 - v) (by omega)
    · apply decide_eq_true
      rw [posOf, if_pos rfl, posOf, if_neg (by omega)]
      have e1 : v - 1 + (M - 1 - v) = M - 1 - 1 := by omega
      rw [e1, Nat.mod_eq_of_lt (by omega)]
      omega
    · intro i hi hpi
      rw [decide_eq_true_eq, posOf, if_pos rfl, posOf, if_neg (by omega)] at hpi
      have hmod : (v - 1 + i) % (M - 1) = M - 1 - 1 := by
        have := Nat.mod_lt (v - 1 + i) (y := M - 1) (by omega)
        omega
      have hmod0 : (v - 1 + (M - 1 - v)) % (M - 1) = M - 1 - 1 := by
        have e1 : v - 1 + (M - 1 - v) = M - 1 - 1 := by omega
        rw [e1, Nat.mod_eq_of_lt (by omega)]
      have hcan : i ≡ M - 1 - v [MOD M - 1] :=
        Nat.ModEq.add_left_cancel' (v - 1) (by rw [Nat.ModEq, hmod, hmod0])
      rw [Nat.ModEq, Nat.mod_eq_of_lt hi, Nat.mod_eq_of_lt (by omega)] at hcan
      exact hcan
  · by_cases hv0 : v = 0
    · subst hv0
      have hu1 : 1 ≤ u := by omega
      apply countP_range_unique _ (M - 1) (M - 1 - u) (by omega)
      · apply decide_eq_true
        rw [posOf, if_neg (by omega), posOf, if_pos rfl]
        have e1 : u - 1 + (M - 1 - u) = M - 1 - 1 := by omega
        rw [e1, Nat.mod_eq_of_lt (by omega)]
        omega
      · intro i hi hpi
        rw [decide_eq_true_eq, posOf, if_neg (by omega), posOf, if_pos rfl] at hpi
        have hmod : (u - 1 + i) % (M - 1) = M - 1 - 1 := by
          have := Nat.mod_lt (u - 1 + i) (y := M - 1) (by omega)
          omega
        have hmod0 : (u - 1 + (M - 1 - u)) % (M - 1) = M - 1 - 1 := by
          have e1 : u - 1 + (M - 1 - u) = M - 1 - 1 := by omega
          rw [e1, Nat.mod_eq_of_lt (by omega)]
        have hcan : i ≡ M - 1 - u [MOD M - 1] :=
          Nat.ModEq.add_left_cancel' (u - 1) (by rw [Nat.ModEq, hmod, hmod0])
        rw [Nat.ModEq, Nat.mod_eq_of_lt hi, Nat.mod_eq_of_lt (by omega)] at hcan
        exact hcan
    · -- both u and v are non-anchor tokens
      have hu1 : 1 ≤ u := by omega
      have hv1 : 1 ≤ v := by omega
      have hm2 : 2 ≤ M - 1 := by omega
      have hmodd : (M - 1) % 2 = 1 := by omega
      -- the defining congruence for the meeting round
      have hiff : ∀ i, ((posOf M i u + posOf M i v = M - 1) ↔
          ((u + v - 2 + 2 * i) % (M - 1) = M - 1 - 2)) := by
        intro i
        rw [posOf, if_neg (by omega), posOf, if_neg (by omega)]
        have hA : (u - 1 + i) % (M - 1) < M - 1 := Nat.mod_lt _ (by omega)
        have hB : (v - 1 + i) % (M - 1) < M - 1 := Nat.mod_lt _ (by omega)
        have hAB : (u - 1 + i) % (M - 1) ≠ (v - 1 + i) % (M - 1) := by
          intro hcon
          have hcan : u - 1 ≡ v - 1 [MOD M - 1] :=
            Nat.ModEq.add_right_cancel' i hcon
          rw [Nat.ModEq, Nat.mod_eq_of_lt (by omega), Nat.mod_eq_of_lt (by omega)]
            at hcan
          omega
        have hsplit : (u + v - 2 + 2 * i) % (M - 1) =
            ((u - 1 + i) % (M - 1) + (v - 1 + i) % (M - 1)) % (M - 1) := by
          rw [← Nat.add_mod]
          congr 1
          omega
        constructor
        · intro h
          have hsum : (u - 1 + i) % (M - 1) + (v - 1 + i) % (M - 1) = M - 1 - 2 := by
            omega
          rw [hsplit, hsum, Nat.mod_eq_of_lt (by omega)]
        · intro h
          rw [hsplit] at h
          set A := (u - 1 + i) % (M - 1) with hAdef
          set B := (v - 1 + i) % (M - 1) with hBdef
          by_cases hlt : A + B < M - 1
          · rw [Nat.mod_eq_of_lt hlt] at h
            omega
          · rw [Nat.mod_eq_sub_mod (by omega),
              Nat.mod_eq_of_lt (by omega)] at h
            omega
      -- the unique solution
      set s := (2 * (M - 1) - (u + v)) % (M - 1) with hsdef
      have hs_lt : s < M - 1 := Nat.mod_lt _ (by omega)
      set k0 := if s % 2 = 0 then s / 2 else (s + (M - 1)) / 2 with hk0def
      have hk0_lt : k0 < M - 1 := by
        rw [hk0def]
        split <;> omega
      have h2k0 : (2 * k0) % (M - 1) = s := by
        rw [hk0def]
        by_cases hpar : s % 2 = 0
        · rw [if_pos hpar]
          have e1 : 2 * (s / 2) = s := by omega
          rw [e1, Nat.mod_eq_of_lt hs_lt]
        · rw [if_neg hpar]
          have e1 : 2 * ((s + (M - 1)) / 2) = s + (M - 1) := by omega
          rw [e1, Nat.add_mod_right, Nat.mod_eq_of_lt hs_lt]
      have hcondk0 : (u + v - 2 + 2 * k0) % (M - 1) = M - 1 - 2 := by
        have step1 : (u + v - 2 + 2 * k0) % (M - 1) =
            (u + v - 2 + s) % (M - 1) := by
          conv_lhs => rw [← Nat.add_mod_mod, h2k0]
        have step2 : (u + v - 2 + s) % (M - 1) =
            (u + v - 2 + (2 * (M - 1) - (u + v))) % (M - 1) := by
          rw [hsdef, Nat.add_mod_mod]
        have e1 : u + v - 2 + (2 * (M - 1) - (u + v)) = (M - 1 - 2) + (M - 1) := by
          omega
        rw [step1, step2, e1, Nat.add_mod_right, Nat.mod_eq_of_lt (by omega)]
      apply countP_range_unique _ (M - 1) k0 hk0_lt
      · exact decide_eq_true ((hiff k0).mpr hcondk0)
      · intro i hi hpi
        rw [decide_eq_true_eq, hiff i] at hpi
        have hcani : (2 * i) % (M - 1) = (2 * k0) % (M - 1) := by
          have h1 : u + v - 2 + 2 * i ≡ u + v - 2 + 2 * k0 [MOD M - 1] := by
            rw [Nat.ModEq, hpi, hcondk0]
          exact Nat.ModEq.add_left_cancel' (u + v - 2) h1
        exact two_mul_cancel_mod (M - 1) i k0 hmodd hi hk0_lt hcani

/-! ## Round-number counting -/

theorem rrRound_countP_round (tid : String) (gn : Option Nat)
    (numPlayers half roundIdx : Nat) (pl : List TournamentParticipant) (r : Nat) :
    ((rrRoundMatches tid gn numPlayers half roundIdx pl).countP fun mt =>
      decide (mt.round = r)) =
      if roundIdx + 1 = r then
        (rrRoundMatches tid gn numPlayers half roundIdx pl).length
      else 0 := by
  by_cases hr : roundIdx + 1 = r
  · rw [if_pos hr]
    apply List.countP_eq_length.mpr
    intro mt hmt
    rw [rrRoundMatches] at hmt
    obtain ⟨mi, hmi, hsome⟩ := List.mem_filterMap.mp hmt
    simp only at hsome
    split at hsome
    · rw [Option.some.injEq] at hsome
      rw [← hsome]
      exact decide_eq_true hr
    · cases hsome
  · rw [if_neg hr, List.countP_eq_zero]
    intro mt hmt
    rw [rrRoundMatches] at hmt
    obtain ⟨mi, hmi, hsome⟩ := List.mem_filterMap.mp hmt
    simp only at hsome
    split at hsome
    · rw [Option.some.injEq] at hsome
      rw [← hsome]
      simp only [decide_eq_true_eq]
      exact fun hcon => hr hcon
    · cases hsome

theorem rrLoop_countP_round (tid : String) (gn : Option Nat)
    (P : List TournamentParticipant) (c : Nat)
    (hlenF : ∀ k roundIdx,
      (rrRoundMatches tid gn P.length (P.length / 2) roundIdx
        (rotateCircle^[k] P)).length = c) :
    ∀ fuel r0 k r,
      ((rrLoop tid gn P.length (P.length / 2) fuel r0 (rotateCircle^[k] P)).countP
        fun mt => decide (mt.round = r)) =
      if r0 + 1 ≤ r ∧ r ≤ r0 + fuel then c else 0 := by
  intro fuel
  induction fuel with
  | zero =>
    intro r0 k r
    rw [if_neg (by omega)]
    rfl
  | succ fuel ih =>
    intro r0 k r
    rw [rrLoop, List.countP_append, rrRound_countP_round, hlenF k r0]
    have hrot : rotateCircle (rotateCircle^[k] P) = rotateCircle^[k + 1] P :=
      (Function.iterate_succ_apply' rotateCircle k P).symm
    rw [hrot, ih (r0 + 1) (k + 1) r]
    by_cases hcase : r0 + 1 ≤ r ∧ r ≤ r0 + (fuel + 1)
    · rw [if_pos hcase]
      by_cases hfirst : r0 + 1 = r
      · rw [if_pos hfirst, if_neg (by omega)]
        omega
      · rw [if_neg hfirst, if_pos ⟨by omega, by omega⟩]
        omega
    · rw [if_neg hcase, if_neg (by omega), if_neg (by omega)]

/-! ## C2: round-robin completeness -/

theorem generateRR_even (tid : String) (gn : Option Nat)
    (ps : List TournamentParticipant) (hpar : ps.length % 2 = 0) :
    generateRoundRobinMatches tid ps gn =
      rrLoop tid gn ps.length (ps.length / 2) (ps.length - 1) 0
        (rotateCircle^[0] ps) := by
  simp only [generateRoundRobinMatches]
  rw [if_neg (show ¬ ps.length % 2 = 1 by omega), if_pos hpar,
    Function.iterate_zero_apply]

theorem generateRR_odd (tid : String) (gn : Option Nat)
    (ps : List TournamentParticipant) (hpar : ps.length % 2 = 1) :
    generateRoundRobinMatches tid ps gn =
      rrLoop tid gn (ps ++ [byeParticipant]).length
        ((ps ++ [byeParticipant]).length / 2) ps.length 0
        (rotateCircle^[0] (ps ++ [byeParticipant])) := by
  simp only [generateRoundRobinMatches]
  rw [if_pos hpar, if_neg (show ¬ ps.length % 2 = 0 by omega),
    Function.iterate_zero_apply]

/-- C2: for `N ≥ 2` participants with pairwise-distinct ids, none equal to
`"BYE"`, the circle method produces exactly `N * (N - 1) / 2` matches, and
every unordered pair of distinct participants fills the two slots of exactly
one match. -/
theorem C2_round_robin_complete (tid : String) (gn : Option Nat)
    (ps : List TournamentParticipant) (hN : 2 ≤ ps.length)
    (hnodup : (ps.map TournamentParticipant.id).Nodup)
    (hbye : ∀ p ∈ ps, p.id ≠ "BYE") :
    (generateRoundRobinMatches tid ps gn).length =
      ps.length * (ps.length - 1) / 2 ∧
    ∀ p ∈ ps, ∀ q ∈ ps, p.id ≠ q.id →
      ((generateRoundRobinMatches tid ps gn).countP (pairPred p.id q.id)) = 1 := by
  by_cases hpar : ps.length % 2 = 0
  · have hb : ∀ w, w < ps.length → (ps.getD w noParticipant).id ≠ "BYE" := by
      intro w hw
      rw [List.getD_eq_getElem _ _ hw]
      exact hbye _ (List.getElem_mem ..)
    constructor
    · have hlenR : ∀ k roundIdx, ((rrRoundMatches tid gn ps.length (ps.length / 2)
          roundIdx (rotateCircle^[k] ps)).countP (fun _ => true)) = ps.length / 2 := by
        intro k roundIdx
        rw [List.countP_true]
        exact rrRound_length_noBye tid gn ps hN hb k roundIdx
      have htot := rrLoop_countP_sum tid gn ps.length (ps.length / 2) ps
        (fun _ => true) (fun _ => ps.length / 2) hlenR (ps.length - 1) 0 0
      simp only [Nat.zero_add] at htot
      have hlc : (rrLoop tid gn ps.length (ps.length / 2) (ps.length - 1) 0
          (rotateCircle^[0] ps)).length =
          List.countP (fun _ => true) (rrLoop tid gn ps.length (ps.length / 2)
            (ps.length - 1) 0 (rotateCircle^[0] ps)) := by
        rw [List.countP_true]
      rw [generateRR_even tid gn ps hpar, hlc, htot, sum_map_const_range]
      obtain ⟨t, ht⟩ : ∃ t, ps.length = 2 * t := ⟨ps.length / 2, by omega⟩
      rw [ht]
      have h1 : 2 * t / 2 = t := by omega
      have h2 : 2 * t * (2 * t - 1) = 2 * (t * (2 * t - 1)) := by ring
      rw [h1, h2, Nat.mul_div_cancel_left _ (by norm_num : 0 < 2)]
      exact Nat.mul_comm _ _
    · intro p hp q hq hpq
      obtain ⟨u, hu, hpu⟩ := List.mem_iff_getElem.mp hp
      obtain ⟨v, hv2, hqv⟩ := List.mem_iff_getElem.mp hq
      have hpid : p.id = (ps.getD u noParticipant).id := by
        rw [List.getD_eq_getElem _ _ hu, hpu]
      have hqid : q.id = (ps.getD v noParticipant).id := by
        rw [List.getD_eq_getElem _ _ hv2, hqv]
      have huv : u ≠ v := by
        intro hcon
        subst hcon
        rw [hpu] at hqv
        exact hpq (congrArg TournamentParticipant.id hqv)
      have hroundC := fun k roundIdx => rrRound_countP_pair tid gn ps hN hpar hnodup
        u v hu hv2 huv (hb u hu) (hb v hv2) k roundIdx
      have htot := rrLoop_countP_sum tid gn ps.length (ps.length / 2) ps
        (pairPred (ps.getD u noParticipant).id (ps.getD v noParticipant).id)
        (fun k => if posOf ps.length k u + posOf ps.length k v = ps.length - 1
          then 1 else 0) hroundC (ps.length - 1) 0 0
      simp only [Nat.zero_add] at htot
      have hsum := sum_map_ite_eq_countP
        (fun k => posOf ps.length k u + posOf ps.length k v = ps.length - 1)
        (ps.length - 1)
      rw [generateRR_even tid gn ps hpar, hpid, hqid, htot, hsum,
        posOf_pair_round_count ps.length hN hpar u v hu hv2 huv]
  · have hpar1 : ps.length % 2 = 1 := by omega
    have hMP : (ps ++ [byeParticipant]).length = ps.length + 1 := by
      rw [List.length_append]
      rfl
    have hMev : (ps ++ [byeParticipant]).length % 2 = 0 := by omega
    have hM2 : 2 ≤ (ps ++ [byeParticipant]).length := by omega
    have hgetDa : ∀ w, w < ps.length →
        (ps ++ [byeParticipant]).getD w noParticipant = ps.getD w noParticipant :=
      fun w hw => List.getD_append _ _ _ _ hw
    have hbyeP : ∀ w, w < (ps ++ [byeParticipant]).length →
        ((((ps ++ [byeParticipant]).getD w noParticipant).id = "BYE") ↔
          w = (ps ++ [byeParticipant]).length - 1) := by
      intro w hw
      by_cases hwN : w < ps.length
      · rw [hgetDa w hwN]
        constructor
        · intro hc
          exfalso
          rw [List.getD_eq_getElem _ _ hwN] at hc
          exact hbye _ (List.getElem_mem ..) hc
        · intro hc
          omega
      · have hwe : w = ps.length := by omega
        subst hwe
        rw [List.getD_append_right _ _ _ _ (by omega)]
        have hz : ps.length - ps.length = 0 := by omega
        rw [hz]
        constructor
        · intro _
          omega
        · intro _
          rfl
    have hnodupP : ((ps ++ [byeParticipant]).map TournamentParticipant.id).Nodup := by
      rw [List.map_append, List.nodup_append]
      refine ⟨hnodup, List.nodup_singleton _, ?_⟩
      intro a ha hb2
      rw [List.map_singleton, List.mem_singleton] at hb2
      subst hb2
      obtain ⟨p, hp, hpid2⟩ := List.mem_map.mp ha
      exact hbye p hp hpid2
    have hM1 : (ps ++ [byeParticipant]).length - 1 = ps.length := by omega
    constructor
    · have hlenR : ∀ k roundIdx, ((rrRoundMatches tid gn
          (ps ++ [byeParticipant]).length ((ps ++ [byeParticipant]).length / 2)
          roundIdx (rotateCircle^[k] (ps ++ [byeParticipant]))).countP
          (fun _ => true)) = (ps ++ [byeParticipant]).length / 2 - 1 := by
        intro k roundIdx
        rw [List.countP_true]
        exact rrRound_length_bye tid gn _ hM2 hMev hbyeP k roundIdx
      have htot := rrLoop_countP_sum tid gn (ps ++ [byeParticipant]).length
        ((ps ++ [byeParticipant]).length / 2) (ps ++ [byeParticipant])
        (fun _ => true) (fun _ => (ps ++ [byeParticipant]).length / 2 - 1)
        hlenR ps.length 0 0
      simp only [Nat.zero_add] at htot
      have hlc : (rrLoop tid gn (ps ++ [byeParticipant]).length
          ((ps ++ [byeParticipant]).length / 2) ps.length 0
          (rotateCircle^[0] (ps ++ [byeParticipant]))).length =
          List.countP (fun _ => true) (rrLoop tid gn (ps ++ [byeParticipant]).length
            ((ps ++ [byeParticipant]).length / 2) ps.length 0
            (rotateCircle^[0] (ps ++ [byeParticipant]))) := by
        rw [List.countP_true]
      rw [generateRR_odd tid gn ps hpar1, hlc, htot, sum_map_const_range, hMP]
      obtain ⟨t, ht⟩ : ∃ t, ps.length = 2 * t + 1 := ⟨ps.length / 2, by omega⟩
      rw [ht]
      have h1 : (2 * t + 1 + 1) / 2 - 1 = t := by omega
      have h2 : 2 * t + 1 - 1 = 2 * t := by omega
      have h3 : (2 * t + 1) * (2 * t) = 2 * ((2 * t + 1) * t) := by ring
      rw [h1, h2, h3, Nat.mul_div_cancel_left _ (by norm_num : 0 < 2)]
    · intro p hp q hq hpq
      obtain ⟨u, hu, hpu⟩ := List.mem_iff_getElem.mp hp
      obtain ⟨v, hv2, hqv⟩ := List.mem_iff_getElem.mp hq
      have hpid : p.id = ((ps ++ [byeParticipant]).getD u noParticipant).id := by
        rw [hgetDa u hu, List.getD_eq_getElem _ _ hu, hpu]
      have hqid : q.id = ((ps ++ [byeParticipant]).getD v noParticipant).id := by
        rw [hgetDa v hv2, List.getD_eq_getElem _ _ hv2, hqv]
      have huv : u ≠ v := by
        intro hcon
        subst hcon
        rw [hpu] at hqv
        exact hpq (congrArg TournamentParticipant.id hqv)
      have hbu : ((ps ++ [byeParticipant]).getD u noParticipant).id ≠ "BYE" := by
        intro hc
        have := (hbyeP u (by omega)).mp hc
        omega
      have hbv : ((ps ++ [byeParticipant]).getD v noParticipant).id ≠ "BYE" := by
        intro hc
        have := (hbyeP v (by omega)).mp hc
        omega
      have hroundC := fun k roundIdx => rrRound_countP_pair tid gn
        (ps ++ [byeParticipant]) hM2 hMev hnodupP u v (by omega) (by omega) huv
        hbu hbv k roundIdx
      have htot := rrLoop_countP_sum tid gn (ps ++ [byeParticipant]).length
        ((ps ++ [byeParticipant]).length / 2) (ps ++ [byeParticipant])
        (pairPred ((ps ++ [byeParticipant]).getD u noParticipant).id
          ((ps ++ [byeParticipant]).getD v noParticipant).id)
        (fun k => if posOf (ps ++ [byeParticipant]).length k u +
            posOf (ps ++ [byeParticipant]).length k v =
            (ps ++ [byeParticipant]).length - 1 then 1 else 0)
        hroundC ps.length 0 0
      simp only [Nat.zero_add] at htot
      have hcount := posOf_pair_round_count (ps ++ [byeParticipant]).length hM2 hMev
        u v (by omega) (by omega) huv
      rw [hM1] at htot hcount
      have hsum := sum_map_ite_eq_countP
        (fun k => posOf (ps ++ [byeParticipant]).length k u +
          posOf (ps ++ [byeParticipant]).length k v = ps.length) ps.length
      rw [generateRR_odd tid gn ps hpar1, hpid, hqid, htot, hsum, hcount]

/-- C2 witness: four participants. -/
theorem C2_round_robin_complete_witness :
    (generateRoundRobinMatches "t"
      [{ id := "a" }, { id := "b" }, { id := "c" }, { id := "d" }] none).length =
      ([{ id := "a" }, { id := "b" }, { id := "c" }, { id := "d" }] :
        List TournamentParticipant).length *
        (([{ id := "a" }, { id := "b" }, { id := "c" }, { id := "d" }] :
          List TournamentParticipant).length - 1) / 2 ∧
    ∀ p ∈ ([{ id := "a" }, { id := "b" }, { id := "c" }, { id := "d" }] :
        List TournamentParticipant),
      ∀ q ∈ ([{ id := "a" }, { id := "b" }, { id := "c" }, { id := "d" }] :
        List TournamentParticipant), p.id ≠ q.id →
      ((generateRoundRobinMatches "t"
        [{ id := "a" }, { id := "b" }, { id := "c" }, { id := "d" }] none).countP
        (pairPred p.id q.id)) = 1 :=
  C2_round_robin_complete "t" none
    [{ id := "a" }, { id := "b" }, { id := "c" }, { id := "d" }]
    (by decide) (by decide) (by decide)

/-! ## C9: round sizing -/

/-- C9: with `N ≥ 2` participants (ids never `"BYE"`): for even `N` the
schedule has exactly `N - 1` rounds of exactly `N / 2` matches each (and no
match in any other round); for odd `N` it has exactly `N` rounds of exactly
`(N - 1) / 2` matches each. -/
theorem C9_round_robin_round_sizes (tid : String) (gn : Option Nat)
    (ps : List TournamentParticipant) (hN : 2 ≤ ps.length)
    (hbye : ∀ p ∈ ps, p.id ≠ "BYE") :
    (ps.length % 2 = 0 → ∀ r : Nat,
      ((generateRoundRobinMatches tid ps gn).countP fun mt => decide (mt.round = r)) =
        if 1 ≤ r ∧ r ≤ ps.length - 1 then ps.length / 2 else 0) ∧
    (ps.length % 2 = 1 → ∀ r : Nat,
      ((generateRoundRobinMatches tid ps gn).countP fun mt => decide (mt.round = r)) =
        if 1 ≤ r ∧ r ≤ ps.length then (ps.length - 1) / 2 else 0) := by
  constructor
  · intro hpar r
    have hb : ∀ w, w < ps.length → (ps.getD w noParticipant).id ≠ "BYE" := by
      intro w hw
      rw [List.getD_eq_getElem _ _ hw]
      exact hbye _ (List.getElem_mem ..)
    have hlenF : ∀ k roundIdx, (rrRoundMatches tid gn ps.length (ps.length / 2)
        roundIdx (rotateCircle^[k] ps)).length = ps.length / 2 :=
      rrRound_length_noBye tid gn ps hN hb
    have h := rrLoop_countP_round tid gn ps (ps.length / 2) hlenF
      (ps.length - 1) 0 0 r
    rw [generateRR_even tid gn ps hpar, h]
    by_cases hc : 1 ≤ r ∧ r ≤ ps.length - 1
    · rw [if_pos (by omega), if_pos hc]
    · rw [if_neg (by omega), if_neg hc]
  · intro hpar r
    have hMP : (ps ++ [byeParticipant]).length = ps.length + 1 := by
      rw [List.length_append]
      rfl
    have hMev : (ps ++ [byeParticipant]).length % 2 = 0 := by omega
    have hM2 : 2 ≤ (ps ++ [byeParticipant]).length := by omega
    have hbyeP : ∀ w, w < (ps ++ [byeParticipant]).length →
        ((((ps ++ [byeParticipant]).getD w noParticipant).id = "BYE") ↔
          w = (ps ++ [byeParticipant]).length - 1) := by
      intro w hw
      by_cases hwN : w < ps.length
      · rw [List.getD_append _ _ _ _ hwN]
        constructor
        · intro hc
          exfalso
          rw [List.getD_eq_getElem _ _ hwN] at hc
          exact hbye _ (List.getElem_mem ..) hc
        · intro hc
          omega
      · have hwe : w = ps.length := by omega
        subst hwe
        rw [List.getD_append_right _ _ _ _ (by omega)]
        have hz : ps.length - ps.length = 0 := by omega
        rw [hz]
        constructor
        · intro _
          omega
        · intro _
          rfl
    have hlenF : ∀ k roundIdx, (rrRoundMatches tid gn
        (ps ++ [byeParticipant]).length ((ps ++ [byeParticipant]).length / 2)
        roundIdx (rotateCircle^[k] (ps ++ [byeParticipant]))).length =
        (ps ++ [byeParticipant]).length / 2 - 1 :=
      rrRound_length_bye tid gn _ hM2 hMev hbyeP
    have h := rrLoop_countP_round tid gn (ps ++ [byeParticipant])
      ((ps ++ [byeParticipant]).length / 2 - 1) hlenF ps.length 0 0 r
    rw [generateRR_odd tid gn ps hpar, h]
    have hval : (ps ++ [byeParticipant]).length / 2 - 1 = (ps.length - 1) / 2 := by
      omega
    rw [hval]
    by_cases hc : 1 ≤ r ∧ r ≤ ps.length
    · rw [if_pos (by omega), if_pos hc]
    · rw [if_neg (by omega), if_neg hc]

/-- C9 witness: five participants (odd case; one idle participant per round). -/
theorem C9_round_robin_round_sizes_witness :
    (([{ id := "a" }, { id := "b" }, { id := "c" }, { id := "d" }, { id := "e" }] :
        List TournamentParticipant).length % 2 = 0 → ∀ r : Nat,
      ((generateRoundRobinMatches "t"
        [{ id := "a" }, { id := "b" }, { id := "c" }, { id := "d" }, { id := "e" }]
        (some 1)).countP fun mt => decide (mt.round = r)) =
        if 1 ≤ r ∧ r ≤ ([{ id := "a" }, { id := "b" }, { id := "c" }, { id := "d" },
            { id := "e" }] : List TournamentParticipant).length - 1 then
          ([{ id := "a" }, { id := "b" }, { id := "c" }, { id := "d" },
            { id := "e" }] : List TournamentParticipant).length / 2
        else 0) ∧
    (([{ id := "a" }, { id := "b" }, { id := "c" }, { id := "d" }, { id := "e" }] :
        List TournamentParticipant).length % 2 = 1 → ∀ r : Nat,
      ((generateRoundRobinMatches "t"
        [{ id := "a" }, { id := "b" }, { id := "c" }, { id := "d" }, { id := "e" }]
        (some 1)).countP fun mt => decide (mt.round = r)) =
        if 1 ≤ r ∧ r ≤ ([{ id := "a" }, { id := "b" }, { id := "c" }, { id := "d" },
            { id := "e" }] : List TournamentParticipant).length then
          (([{ id := "a" }, { id := "b" }, { id := "c" }, { id := "d" },
            { id := "e" }] : List TournamentParticipant).length - 1) / 2
        else 0) :=
  C9_round_robin_round_sizes "t" (some 1)
    [{ id := "a" }, { id := "b" }, { id := "c" }, { id := "d" }, { id := "e" }]
    (by decide) (by decide)
